import Mathlib

/-!
Verification development for the LeadPilot lead-generation front-end.

This file gives a shallow embedding of the repository's core logic:

* the email-content codec of `EmailPreviewModal` (`src/components/dashboard/LeadCard.tsx`,
  two variants of the modal appear in the repository), i.e. the JSON / text
  parsing in its `useEffect` and the serialization in `handleSave`;
* the lead-row lifecycle (`sendEmailToLead`, `handleEmailSent` in
  `src/pages/History.tsx`, the `lead_history` table of the migration);
* the `GenerateLeads.handleSubmit` response handling (two page variants);
* the filter / pagination view model of `src/pages/History.tsx`.

Strings are modelled as `List Char`.  JavaScript's `JSON.parse` / `JSON.stringify`
are modelled by an executable parser / serializer over a JSON value type `JVal`.
Modelling notes: JSON numbers are modelled as integers (no claim exercises
fractional numbers; on a fractional literal the modelled parser fails where a
real JSON parser succeeds), and the JavaScript whitespace class `\s` is modelled
by its common members (tab, LF, VT, FF, CR, space, NBSP, LS, PS, BOM).
-/

namespace LeadPilot

/-- The character `{` (kept out of character-literal syntax). -/
def lbrace : Char := Char.ofNat 123

/-- The character `}` (kept out of character-literal syntax). -/
def rbrace : Char := Char.ofNat 125

/-- JavaScript's `\s` character class (common members, see module comment). -/
def jsWS (c : Char) : Bool :=
  c.toNat = 9 || c.toNat = 10 || c.toNat = 11 || c.toNat = 12 || c.toNat = 13 ||
  c.toNat = 32 || c.toNat = 160 || c.toNat = 8232 || c.toNat = 8233 || c.toNat = 65279

/-- JSON's whitespace class (the four characters allowed by `JSON.parse`). -/
def jsonWS (c : Char) : Bool :=
  c.toNat = 9 || c.toNat = 10 || c.toNat = 13 || c.toNat = 32

/-- Characters matched by the JavaScript regex `.` (anything but a line terminator). -/
def dotChar (c : Char) : Bool :=
  !(c.toNat = 10 || c.toNat = 13 || c.toNat = 8232 || c.toNat = 8233)

/-- Drop the leading `jsWS` run (used by `String.prototype.trim`). -/
def dropWS : List Char → List Char
  | [] => []
  | c :: tl => if jsWS c then dropWS tl else c :: tl

/-- JavaScript `String.prototype.trim`. -/
def jsTrim (s : List Char) : List Char :=
  ((dropWS ((dropWS s).reverse)).reverse)

/-- Length of the leading `jsWS` run (what the greedy regex `\s*` consumes first). -/
def wsRun : List Char → Nat
  | [] => 0
  | c :: tl => if jsWS c then wsRun tl + 1 else 0

/-- Case-insensitive "the pattern is a prefix of the text" (regex `/i` matching
of a literal). -/
def ciStarts : List Char → List Char → Bool
  | [], _ => true
  | _ :: _, [] => false
  | p :: ps, c :: cs => (p.toLower == c.toLower) && ciStarts ps cs

/-- Index of the first case-insensitive occurrence of `pat` in the text. -/
def ciFind (pat : List Char) : List Char → Option Nat
  | [] => if pat.isEmpty then some 0 else none
  | hay@(_ :: tl) =>
    if ciStarts pat hay then some 0 else (ciFind pat tl).map (· + 1)

/-- Plain (case-sensitive) prefix test. -/
def plainStarts : List Char → List Char → Bool
  | [], _ => true
  | _ :: _, [] => false
  | p :: ps, c :: cs => (p == c) && plainStarts ps cs

/-- JavaScript `String.prototype.includes` (case-sensitive substring test). -/
def includesL (needle : List Char) : List Char → Bool
  | [] => needle.isEmpty
  | hay@(_ :: tl) => plainStarts needle hay || includesL needle tl

/-- JavaScript `String.prototype.indexOf` (first occurrence, `none` for -1). -/
def indexOfSub (needle : List Char) : List Char → Option Nat
  | [] => if needle.isEmpty then some 0 else none
  | hay@(_ :: tl) =>
    if plainStarts needle hay then some 0 else (indexOfSub needle tl).map (· + 1)

/-- Map to lower case (JavaScript `toLowerCase`, adequate for the ASCII data here). -/
def toLowerL (l : List Char) : List Char := l.map Char.toLower

/-- JSON values as produced by `JSON.parse` (numbers restricted to integers). -/
inductive JVal where
  | jnull
  | jbool (b : Bool)
  | jnum (n : Int)
  | jstr (s : List Char)
  | jarr (elems : List JVal)
  | jobj (fields : List (List Char × JVal))

/-- Decidable equality for `JVal` (written out because the nested inductive
cannot use the derive handler). -/
def decEqJVal : (x y : JVal) → Decidable (x = y)
  | .jnull, .jnull => .isTrue rfl
  | .jbool a, .jbool b =>
      if h : a = b then .isTrue (by rw [h]) else .isFalse (by simp [h])
  | .jnum a, .jnum b =>
      if h : a = b then .isTrue (by rw [h]) else .isFalse (by simp [h])
  | .jstr a, .jstr b =>
      if h : a = b then .isTrue (by rw [h]) else .isFalse (by simp [h])
  | .jarr xs, .jarr ys =>
      match decEqL xs ys with
      | .isTrue h => .isTrue (by rw [h])
      | .isFalse h => .isFalse (by simp [h])
  | .jobj fs, .jobj gs =>
      match decEqF fs gs with
      | .isTrue h => .isTrue (by rw [h])
      | .isFalse h => .isFalse (by simp [h])
  | .jnull, .jbool _ => .isFalse (fun h => JVal.noConfusion h)
  | .jnull, .jnum _ => .isFalse (fun h => JVal.noConfusion h)
  | .jnull, .jstr _ => .isFalse (fun h => JVal.noConfusion h)
  | .jnull, .jarr _ => .isFalse (fun h => JVal.noConfusion h)
  | .jnull, .jobj _ => .isFalse (fun h => JVal.noConfusion h)
  | .jbool _, .jnull => .isFalse (fun h => JVal.noConfusion h)
  | .jbool _, .jnum _ => .isFalse (fun h => JVal.noConfusion h)
  | .jbool _, .jstr _ => .isFalse (fun h => JVal.noConfusion h)
  | .jbool _, .jarr _ => .isFalse (fun h => JVal.noConfusion h)
  | .jbool _, .jobj _ => .isFalse (fun h => JVal.noConfusion h)
  | .jnum _, .jnull => .isFalse (fun h => JVal.noConfusion h)
  | .jnum _, .jbool _ => .isFalse (fun h => JVal.noConfusion h)
  | .jnum _, .jstr _ => .isFalse (fun h => JVal.noConfusion h)
  | .jnum _, .jarr _ => .isFalse (fun h => JVal.noConfusion h)
  | .jnum _, .jobj _ => .isFalse (fun h => JVal.noConfusion h)
  | .jstr _, .jnull => .isFalse (fun h => JVal.noConfusion h)
  | .jstr _, .jbool _ => .isFalse (fun h => JVal.noConfusion h)
  | .jstr _, .jnum _ => .isFalse (fun h => JVal.noConfusion h)
  | .jstr _, .jarr _ => .isFalse (fun h => JVal.noConfusion h)
  | .jstr _, .jobj _ => .isFalse (fun h => JVal.noConfusion h)
  | .jarr _, .jnull => .isFalse (fun h => JVal.noConfusion h)
  | .jarr _, .jbool _ => .isFalse (fun h => JVal.noConfusion h)
  | .jarr _, .jnum _ => .isFalse (fun h => JVal.noConfusion h)
  | .jarr _, .jstr _ => .isFalse (fun h => JVal.noConfusion h)
  | .jarr _, .jobj _ => .isFalse (fun h => JVal.noConfusion h)
  | .jobj _, .jnull => .isFalse (fun h => JVal.noConfusion h)
  | .jobj _, .jbool _ => .isFalse (fun h => JVal.noConfusion h)
  | .jobj _, .jnum _ => .isFalse (fun h => JVal.noConfusion h)
  | .jobj _, .jstr _ => .isFalse (fun h => JVal.noConfusion h)
  | .jobj _, .jarr _ => .isFalse (fun h => JVal.noConfusion h)
where
  decEqL : (xs ys : List JVal) → Decidable (xs = ys)
    | [], [] => .isTrue rfl
    | x :: xs, y :: ys =>
      match decEqJVal x y, decEqL xs ys with
      | .isTrue h1, .isTrue h2 => .isTrue (by rw [h1, h2])
      | .isFalse h1, _ => .isFalse (by simp [h1])
      | _, .isFalse h2 => .isFalse (by simp [h2])
    | [], _ :: _ => .isFalse (fun h => List.noConfusion h)
    | _ :: _, [] => .isFalse (fun h => List.noConfusion h)
  decEqF : (xs ys : List (List Char × JVal)) → Decidable (xs = ys)
    | [], [] => .isTrue rfl
    | (k, x) :: xs, (l, y) :: ys =>
      if h0 : k = l then
        match decEqJVal x y, decEqF xs ys with
        | .isTrue h1, .isTrue h2 => .isTrue (by rw [h0, h1, h2])
        | .isFalse h1, _ => .isFalse (by simp [h1])
        | _, .isFalse h2 => .isFalse (by simp [h2])
      else .isFalse (by simp [h0])
    | [], _ :: _ => .isFalse (fun h => List.noConfusion h)
    | _ :: _, [] => .isFalse (fun h => List.noConfusion h)

instance : DecidableEq JVal := decEqJVal

/-- Property lookup on an object (last duplicate key wins, as in `JSON.parse`);
property access on a non-object JSON value yields `undefined` (`none`). -/
def getField (v : JVal) (k : List Char) : Option JVal :=
  match v with
  | .jobj fs => fieldIn fs
  | _ => none
where
  fieldIn : List (List Char × JVal) → Option JVal
    | [] => none
    | (key, val) :: tl =>
      match fieldIn tl with
      | some r => some r
      | none => if key = k then some val else none

/-- JavaScript truthiness of a possibly-`undefined` JSON value. -/
def truthy : Option JVal → Bool
  | none => false
  | some .jnull => false
  | some (.jbool b) => b
  | some (.jnum n) => !(n == 0)
  | some (.jstr s) => !s.isEmpty
  | some (.jarr _) => true
  | some (.jobj _) => true

/-- Hexadecimal digit character for `n < 16` (lower case, as `JSON.stringify` emits). -/
def hexDig (n : Nat) : Char :=
  Char.ofNat (if n < 10 then 48 + n else 87 + n)

/-- `JSON.stringify` escaping of one character inside a string literal. -/
def escChar (c : Char) : List Char :=
  if c = '"' then ['\\', '"']
  else if c = '\\' then ['\\', '\\']
  else if c = '\n' then ['\\', 'n']
  else if c = '\r' then ['\\', 'r']
  else if c = '\t' then ['\\', 't']
  else if c = '\x08' then ['\\', 'b']
  else if c = '\x0c' then ['\\', 'f']
  else if c.toNat < 32 then ['\\', 'u', '0', '0', hexDig (c.toNat / 16), hexDig (c.toNat % 16)]
  else [c]

/-- `JSON.stringify` escaping of a whole string body. -/
def escape : List Char → List Char
  | [] => []
  | c :: tl => escChar c ++ escape tl

/-- `JSON.stringify` (keys in insertion order, integers printed decimally). -/
def strVal : JVal → List Char
  | .jnull => ['n', 'u', 'l', 'l']
  | .jbool true => ['t', 'r', 'u', 'e']
  | .jbool false => ['f', 'a', 'l', 's', 'e']
  | .jnum n => (toString n).data
  | .jstr s => '"' :: (escape s ++ ['"'])
  | .jarr [] => ['[', ']']
  | .jarr (x :: xs) => '[' :: (strVal x ++ strElemsTail xs ++ [']'])
  | .jobj [] => [lbrace, rbrace]
  | .jobj ((k, v) :: fs) =>
      lbrace :: '"' :: (escape k ++ '"' :: ':' :: strVal v ++ strFieldsTail fs ++ [rbrace])
where
  strElemsTail : List JVal → List Char
    | [] => []
    | x :: tl => ',' :: (strVal x ++ strElemsTail tl)
  strFieldsTail : List (List Char × JVal) → List Char
    | [] => []
    | (k, v) :: tl => ',' :: '"' :: (escape k ++ '"' :: ':' :: strVal v ++ strFieldsTail tl)

/-- JSON values without numeric leaves (all values handled by the claims). -/
def numFree : JVal → Bool
  | .jnull => true
  | .jbool _ => true
  | .jnum _ => false
  | .jstr _ => true
  | .jarr xs => numFreeL xs
  | .jobj fs => numFreeF fs
where
  numFreeL : List JVal → Bool
    | [] => true
    | x :: tl => numFree x && numFreeL tl
  numFreeF : List (List Char × JVal) → Bool
    | [] => true
    | (_, v) :: tl => numFree v && numFreeF tl

/-- Drop leading JSON whitespace. -/
def skipWs : List Char → List Char
  | [] => []
  | c :: tl => if jsonWS c then skipWs tl else c :: tl

/-- Value of a hexadecimal digit character. -/
def hexVal (c : Char) : Option Nat :=
  if 48 ≤ c.toNat ∧ c.toNat ≤ 57 then some (c.toNat - 48)
  else if 97 ≤ c.toNat ∧ c.toNat ≤ 102 then some (c.toNat - 87)
  else if 65 ≤ c.toNat ∧ c.toNat ≤ 70 then some (c.toNat - 55)
  else none

/-- Parse a JSON string body (after the opening quote), returning the decoded
characters and the remaining input after the closing quote. -/
def parseStrBody : List Char → Option (List Char × List Char)
  | [] => none
  | '"' :: tl => some ([], tl)
  | '\\' :: 'u' :: h1 :: h2 :: h3 :: h4 :: tl3 =>
    match hexVal h1, hexVal h2, hexVal h3, hexVal h4 with
    | some a, some b, some c2, some d =>
      let n := ((a * 16 + b) * 16 + c2) * 16 + d
      if n < 55296 then (parseStrBody tl3).map (fun p => (Char.ofNat n :: p.1, p.2))
      else none
    | _, _, _, _ => none
  | '\\' :: e :: tl2 =>
    if e = '"' then (parseStrBody tl2).map (fun p => ('"' :: p.1, p.2))
    else if e = '\\' then (parseStrBody tl2).map (fun p => ('\\' :: p.1, p.2))
    else if e = '/' then (parseStrBody tl2).map (fun p => ('/' :: p.1, p.2))
    else if e = 'n' then (parseStrBody tl2).map (fun p => ('\n' :: p.1, p.2))
    else if e = 'r' then (parseStrBody tl2).map (fun p => ('\r' :: p.1, p.2))
    else if e = 't' then (parseStrBody tl2).map (fun p => ('\t' :: p.1, p.2))
    else if e = 'b' then (parseStrBody tl2).map (fun p => ('\x08' :: p.1, p.2))
    else if e = 'f' then (parseStrBody tl2).map (fun p => ('\x0c' :: p.1, p.2))
    else none
  | ['\\'] => none
  | c :: tl =>
    if c.toNat < 32 then none
    else (parseStrBody tl).map (fun p => (c :: p.1, p.2))

/-- Collect a leading run of decimal digits. -/
def digitsRun : List Char → (List Nat × List Char)
  | [] => ([], [])
  | c :: tl =>
    if 48 ≤ c.toNat ∧ c.toNat ≤ 57 then
      let p := digitsRun tl
      ((c.toNat - 48) :: p.1, p.2)
    else ([], c :: tl)

/-- Natural number denoted by a digit list (most significant first). -/
def natFromDigits (ds : List Nat) : Nat := ds.foldl (fun a d => a * 10 + d) 0

/-- Parse a JSON integer literal (see module comment for the restriction). -/
def parseNum (cs : List Char) : Option (JVal × List Char) :=
  match cs with
  | '-' :: tl =>
    match digitsRun tl with
    | ([], _) => none
    | (ds, r) => some (.jnum (-(natFromDigits ds : Int)), r)
  | _ =>
    match digitsRun cs with
    | ([], _) => none
    | (ds, r) => some (.jnum (natFromDigits ds : Int), r)

/-- Head test on a character list. -/
def headIs (c : Char) (l : List Char) : Bool :=
  match l with
  | d :: _ => d == c
  | [] => false

mutual

/-- Parse one JSON value (fuel-indexed; `parse` supplies ample fuel). -/
def parseVal : Nat → List Char → Option (JVal × List Char)
  | 0, _ => none
  | fuel + 1, cs =>
    match cs with
    | [] => none
    | c :: tl =>
      if c = 'n' then
        if tl.take 3 = ['u', 'l', 'l'] then some (.jnull, tl.drop 3) else none
      else if c = 't' then
        if tl.take 3 = ['r', 'u', 'e'] then some (.jbool true, tl.drop 3) else none
      else if c = 'f' then
        if tl.take 4 = ['a', 'l', 's', 'e'] then some (.jbool false, tl.drop 4) else none
      else if c = '"' then (parseStrBody tl).map (fun p => (.jstr p.1, p.2))
      else if c = '[' then
        let body := skipWs tl
        if headIs ']' body then some (.jarr [], body.tail)
        else
          match parseVal fuel body with
          | some (v, r) =>
            match parseElemsTail fuel r with
            | some (xs, r2) => some (.jarr (v :: xs), r2)
            | none => none
          | none => none
      else if c = lbrace then
        let body := skipWs tl
        if headIs rbrace body then some (.jobj [], body.tail)
        else
          match parseOneField fuel body with
          | some (kv, r) =>
            match parseFieldsTail fuel r with
            | some (fs, r2) => some (.jobj (kv :: fs), r2)
            | none => none
          | none => none
      else if c = '-' ∨ (48 ≤ c.toNat ∧ c.toNat ≤ 57) then parseNum (c :: tl)
      else none

/-- Parse one `"key": value` pair of a JSON object. -/
def parseOneField : Nat → List Char → Option ((List Char × JVal) × List Char)
  | 0, _ => none
  | fuel + 1, cs =>
    if headIs '"' cs then
      match parseStrBody cs.tail with
      | some (k, r) =>
        let r1 := skipWs r
        if headIs ':' r1 then
          match parseVal fuel (skipWs r1.tail) with
          | some (v, r3) => some ((k, v), r3)
          | none => none
        else none
      | none => none
    else none

/-- Parse the rest of a JSON array after its first element. -/
def parseElemsTail : Nat → List Char → Option (List JVal × List Char)
  | 0, _ => none
  | fuel + 1, cs =>
    let body := skipWs cs
    if headIs ']' body then some ([], body.tail)
    else if headIs ',' body then
      match parseVal fuel (skipWs body.tail) with
      | some (v, r) =>
        match parseElemsTail fuel r with
        | some (xs, r2) => some (v :: xs, r2)
        | none => none
      | none => none
    else none

/-- Parse the rest of a JSON object after its first field. -/
def parseFieldsTail : Nat → List Char → Option (List (List Char × JVal) × List Char)
  | 0, _ => none
  | fuel + 1, cs =>
    let body := skipWs cs
    if headIs rbrace body then some ([], body.tail)
    else if headIs ',' body then
      match parseOneField fuel (skipWs body.tail) with
      | some (kv, r) =>
        match parseFieldsTail fuel r with
        | some (fs, r2) => some (kv :: fs, r2)
        | none => none
      | none => none
    else none

end

/-- `JSON.parse`: parse a whole input string (leading / trailing whitespace
allowed, everything must be consumed), `none` models a thrown `SyntaxError`. -/
def parse (s : List Char) : Option JVal :=
  let cs := skipWs s
  match parseVal (cs.length + 1) cs with
  | some (v, rest) => if skipWs rest = [] then some v else none
  | none => none

/-! ## The email-content codec (`EmailPreviewModal`) -/

/-- The canonical subject key `"Subject Line"`. -/
def slKey : List Char := "Subject Line".data

/-- The canonical body key `"Email Body"`. -/
def ebKey : List Char := "Email Body".data

/-- The wrapper key `"output"` of the N8N webhook envelope. -/
def outKey : List Char := "output".data

/-- The legacy subject key `"subject"`. -/
def subjKey : List Char := "subject".data

/-- The legacy body key `"body"`. -/
def bodyKey : List Char := "body".data

/-- Shape 1 of the decode `useEffect`: a non-empty array whose first element has
a truthy `output` property carrying truthy `"Subject Line"` / `"Email Body"`. -/
def shape1 (parsed : JVal) : Option (JVal × JVal) :=
  match parsed with
  | .jarr (first :: _) =>
    match getField first outKey with
    | some out =>
      if truthy (some out) then
        if truthy (getField out slKey) && truthy (getField out ebKey) then
          some ((getField out slKey).getD .jnull, (getField out ebKey).getD .jnull)
        else none
      else none
    | none => none
  | _ => none

/-- Shape 2: a value with truthy `"Subject Line"` / `"Email Body"` properties. -/
def shape2 (parsed : JVal) : Option (JVal × JVal) :=
  if truthy (getField parsed slKey) && truthy (getField parsed ebKey) then
    some ((getField parsed slKey).getD .jnull, (getField parsed ebKey).getD .jnull)
  else none

/-- Shape 3 (legacy): a value with truthy `subject` / `body` properties. -/
def shape3 (parsed : JVal) : Option (JVal × JVal) :=
  if truthy (getField parsed subjKey) && truthy (getField parsed bodyKey) then
    some ((getField parsed subjKey).getD .jnull, (getField parsed bodyKey).getD .jnull)
  else none

/-- Shape 4: a non-empty array whose first element has truthy
`"Subject Line"` / `"Email Body"` properties. -/
def shape4 (parsed : JVal) : Option (JVal × JVal) :=
  match parsed with
  | .jarr (first :: _) =>
    if truthy (getField first slKey) && truthy (getField first ebKey) then
      some ((getField first slKey).getD .jnull, (getField first ebKey).getD .jnull)
    else none
  | _ => none

/-- A regex match: start index, length of the whole match, first capture group. -/
structure RMatch where
  start : Nat
  len : Nat
  capture : List Char
deriving DecidableEq, Repr

/-- Label alternatives `(?:subject|SUBJECT|Subject Line):` under `/i`, returning
the number of characters the label consumed. -/
def tryLabelS (l : List Char) : Option Nat :=
  if ciStarts "subject:".data l then some 8
  else if ciStarts "subject line:".data l then some 13
  else none

/-- Label alternatives `(?:body|BODY|Email Body):` under `/i`. -/
def tryLabelB (l : List Char) : Option Nat :=
  if ciStarts "body:".data l then some 5
  else if ciStarts "email body:".data l then some 11
  else none

/-- Lazy `(.+?)(?:\n|$)`: the shortest non-empty run of `.`-characters followed
by a newline (`true`) or the end of input (`false`). -/
def capRun : List Char → Option (List Char × Bool)
  | [] => none
  | [c] => if dotChar c then some ([c], false) else none
  | c :: d :: tl =>
    if dotChar c then
      if d = '\n' then some ([c], true)
      else (capRun (d :: tl)).map (fun p => (c :: p.1, p.2))
    else none

/-- Backtracking of the greedy `\s*` before `(.+?)(?:\n|$)`: try consuming `k`
whitespace characters, retreating one at a time on failure. -/
def subjTailAt : Nat → List Char → Option (Nat × List Char × Bool)
  | k, rest =>
    match capRun (rest.drop k) with
    | some p => some (k, p.1, p.2)
    | none =>
      match k with
      | 0 => none
      | k' + 1 => subjTailAt k' rest

/-- Match `\s*(.+?)(?:\n|$)` at the start of `rest`. -/
def subjectTail (rest : List Char) : Option (Nat × List Char × Bool) :=
  subjTailAt (wsRun rest) rest

/-- Leftmost match of `/(?:subject|SUBJECT|Subject Line):\s*(.+?)(?:\n|$)/i`. -/
def subjectSearchAux : List Char → Nat → Option RMatch
  | [], _ => none
  | cs@(_ :: tl), i =>
    match tryLabelS cs with
    | some lab =>
      match subjectTail (cs.drop lab) with
      | some (k, cap, term) =>
        some ⟨i, lab + k + cap.length + (if term then 1 else 0), cap⟩
      | none => subjectSearchAux tl (i + 1)
    | none => subjectSearchAux tl (i + 1)

/-- The `emailContent.match(subject regex)` of the decode `useEffect`. -/
def subjectSearch (text : List Char) : Option RMatch :=
  subjectSearchAux text 0

/-- Lazy `([\s\S]*?)(?:\n\n|$)`: the shortest run of any characters followed by
a blank line (`true`) or the end of input (`false`); always succeeds. -/
def bodyCap : List Char → (List Char × Bool)
  | [] => ([], false)
  | c :: tl =>
    if c = '\n' && headIs '\n' tl then ([], true)
    else
      let p := bodyCap tl
      (c :: p.1, p.2)

/-- Leftmost match of `/(?:body|BODY|Email Body):\s*([\s\S]*?)(?:\n\n|$)/i`. -/
def bodySearchAux : List Char → Nat → Option RMatch
  | [], _ => none
  | cs@(_ :: tl), i =>
    match tryLabelB cs with
    | some lab =>
      let rest := cs.drop lab
      let k := wsRun rest
      let p := bodyCap (rest.drop k)
      some ⟨i, lab + k + p.1.length + (if p.2 then 2 else 0), p.1⟩
    | none => bodySearchAux tl (i + 1)

/-- The `emailContent.match(body regex)` of the decode `useEffect`. -/
def bodySearch (text : List Char) : Option RMatch :=
  bodySearchAux text 0

/-- The characters of `match[0]` for a match of `text`. -/
def matchedText (text : List Char) (m : RMatch) : List Char :=
  (text.drop m.start).take m.len

/-- `emailContent.indexOf(subjectMatch[0]) + subjectMatch[0].length` (the
`indexOf` miss value -1 is carried faithfully as an integer). -/
def bodyStartIdx (text : List Char) (m : RMatch) : Int :=
  (match indexOfSub (matchedText text m) text with
   | some i => (i : Int)
   | none => -1) + (matchedText text m).length

/-- JavaScript `String.prototype.substring(i)` (negative indices clamp to 0). -/
def substringFrom (l : List Char) (i : Int) : List Char :=
  l.drop i.toNat

/-- `Regarding $\x7blead?.company || 'Partnership Opportunity'\x7d` (the default
subject synthesized when no pattern matches; an absent lead or empty company
falls back to the generic phrase by JavaScript truthiness). -/
def regardingOf (company : Option (List Char)) : List Char :=
  "Regarding ".data ++
    (match company with
     | some c => if c.isEmpty then "Partnership Opportunity".data else c
     | none => "Partnership Opportunity".data)

/-- The text-format fallback of the decode `useEffect` (lines following the
JSON attempts): label-pattern extraction with the three-way body branch and the
synthesized default subject.  A field that no branch assigns keeps its initial
`useState('')` value. -/
def textFallback (company : Option (List Char)) (emailContent : List Char) : JVal × JVal :=
  let sm := subjectSearch emailContent
  let bm := bodySearch emailContent
  let subject : JVal :=
    match sm with
    | some m => .jstr (jsTrim m.capture)
    | none =>
      match bm with
      | some _ => .jstr []
      | none => .jstr (regardingOf company)
  let body : JVal :=
    match bm with
    | some m => .jstr (jsTrim m.capture)
    | none =>
      match sm with
      | some m => .jstr (jsTrim (substringFrom emailContent (bodyStartIdx emailContent m)))
      | none => .jstr emailContent
  (subject, body)

/-- The ordered JSON-shape chain of the first decode variant (first match wins). -/
def jsonShapes (parsed : JVal) : Option (JVal × JVal) :=
  match shape1 parsed with
  | some r => some r
  | none =>
    match shape2 parsed with
    | some r => some r
    | none =>
      match shape3 parsed with
      | some r => some r
      | none => shape4 parsed

/-- The ordered JSON-shape chain of the second decode variant (no shape 4). -/
def jsonShapes2 (parsed : JVal) : Option (JVal × JVal) :=
  match shape1 parsed with
  | some r => some r
  | none =>
    match shape2 parsed with
    | some r => some r
    | none => shape3 parsed

/-- The decode `useEffect` of the first `EmailPreviewModal` variant
(`LeadCard.tsx` lines 230-305): JSON shapes 1-4 in order, then the text
fallback; empty content resets both fields. -/
def parseEmailContent (company : Option (List Char)) (emailContent : List Char) : JVal × JVal :=
  if emailContent.isEmpty then (.jstr [], .jstr [])
  else
    match parse emailContent with
    | some parsed =>
      (match jsonShapes parsed with
       | some r => r
       | none => textFallback company emailContent)
    | none => textFallback company emailContent

/-- The decode `useEffect` of the second `EmailPreviewModal` variant (lines
591-648): identical except that it lacks shape 4. -/
def parseEmailContent2 (company : Option (List Char)) (emailContent : List Char) : JVal × JVal :=
  if emailContent.isEmpty then (.jstr [], .jstr [])
  else
    match parse emailContent with
    | some parsed =>
      (match jsonShapes2 parsed with
       | some r => r
       | none => textFallback company emailContent)
    | none => textFallback company emailContent

/-- `handleSave` of the first `EmailPreviewModal` variant (lines 307-311):
`JSON.stringify(\x7b 'Subject Line': subject, 'Email Body': body \x7d)`. -/
def handleSave (subject body : JVal) : List Char :=
  strVal (.jobj [(slKey, subject), (ebKey, body)])

/-- `handleSave` of the second `EmailPreviewModal` variant (lines 650-652):
`JSON.stringify(\x7b subject, body \x7d)`. -/
def handleSave2 (subject body : JVal) : List Char :=
  strVal (.jobj [(subjKey, subject), (bodyKey, body)])

/-! ## Lead lifecycle (`History.tsx`, `lead_history` table) -/

/-- The persisted draft / sent fields of a `lead_history` row. -/
structure LeadRow where
  generated_email : Option (List Char)
  email_sent : Bool
  sent_at : Option (List Char)
deriving DecidableEq, Repr

/-- JavaScript truthiness of a `string | null` column. -/
def genTruthy : Option (List Char) → Bool
  | none => false
  | some s => !s.isEmpty

/-- The derived lead status (badge / filter logic of `History.tsx` and
`LeadCard.tsx`): sent flag first, then presence of a generated draft. -/
inductive LeadStatus where
  | noEmail
  | emailGenerated
  | emailSent
deriving DecidableEq, Repr

/-- `lead.email_sent ? sent : lead.generated_email ? generated : none`. -/
def statusOf (r : LeadRow) : LeadStatus :=
  if r.email_sent then .emailSent
  else if genTruthy r.generated_email then .emailGenerated
  else .noEmail

/-- A freshly inserted row (`GenerateLeads` insert: `generated_email: null`,
`email_sent: false`; `sent_at` keeps its `NULL` column default). -/
def insertedRow : LeadRow :=
  { generated_email := none, email_sent := false, sent_at := none }

/-- The `generated_email` update of `generateEmailForLead` / `handleEmailUpdate`. -/
def setGeneratedEmail (r : LeadRow) (e : List Char) : LeadRow :=
  { r with generated_email := some e }

/-- The update written by a successful send (`History.sendEmailToLead` and
`History.handleEmailSent`): `email_sent: true` and `sent_at` in one update. -/
def markSent (r : LeadRow) (t : List Char) : LeadRow :=
  { r with email_sent := true, sent_at := some t }

/-- `History.sendEmailToLead` on one row: the `!lead.generated_email` guard
skips the remote call entirely; a failing call (`ok = false`) is caught and
changes nothing; a successful call marks the row sent.  The second component
records whether the remote `send-email` call was issued. -/
def sendEmailToLead (r : LeadRow) (ok : Bool) (t : List Char) : LeadRow × Bool :=
  if !genTruthy r.generated_email then (r, false)
  else if ok then (markSent r t, true)
  else (r, true)

/-- The row-mutating operations the repository performs on a `lead_history`
row: the insert, the draft update, and a send attempt (successful or failed). -/
inductive RowOp where
  | insert
  | generate (e : List Char)
  | send (ok : Bool) (t : List Char)

/-- Apply one operation to a row. -/
def applyOp (r : LeadRow) : RowOp → LeadRow
  | .insert => insertedRow
  | .generate e => setGeneratedEmail r e
  | .send ok t => (sendEmailToLead r ok t).1

/-- `handleSend` of `EmailPreviewModal` (identical guard in both variants,
lines 410-413 and 703-706): bail out silently unless the lead is present and
subject and body are non-empty; on a failed call the `onEmailSent` callback is
not invoked.  Result: (request issued, `onEmailSent` fired). -/
def handleSend (leadPresent : Bool) (subject body : List Char) (ok : Bool) : Bool × Bool :=
  if !leadPresent || subject.isEmpty || body.isEmpty then (false, false)
  else (true, ok)

/-! ## `GenerateLeads.handleSubmit` (two page variants) -/

/-- Response handling of the first `GenerateLeads` variant (lines 81-83):
`if (result.leads && Array.isArray(result.leads)) setGeneratedLeads(result.leads)`. -/
def respLeadsObject (result : JVal) (prev : List JVal) : List JVal :=
  match getField result "leads".data with
  | some (.jarr ls) => ls
  | _ => prev

/-- Response handling of the second `GenerateLeads` variant (lines 363-364):
`if (Array.isArray(result) && result.length > 0) setGeneratedLeads(result)`. -/
def respLeadsArray (result : JVal) (prev : List JVal) : List JVal :=
  match result with
  | .jarr (x :: xs) => x :: xs
  | _ => prev

/-- `handleSubmit` of the first `GenerateLeads` variant: the
`!description.trim()` guard returns before any network activity; `none` as
response models a non-2xx / transport failure (caught, state unchanged).
Result: (remote call issued, new `generatedLeads`). -/
def handleSubmit (description : List Char) (prev : List JVal) (response : Option JVal) :
    Bool × List JVal :=
  if (jsTrim description).isEmpty then (false, prev)
  else
    match response with
    | none => (true, prev)
    | some result => (true, respLeadsObject result prev)

/-- `handleSubmit` of the second `GenerateLeads` variant (same guard, bare
array envelope). -/
def handleSubmit2 (description : List Char) (prev : List JVal) (response : Option JVal) :
    Bool × List JVal :=
  if (jsTrim description).isEmpty then (false, prev)
  else
    match response with
    | none => (true, prev)
    | some result => (true, respLeadsArray result prev)

/-- The in-memory `GeneratedLead` record of the `GenerateLeads` page (its
interface carries no `sent_at` field). -/
structure GeneratedLead where
  generated_email : Option (List Char)
  email_sent : Bool
deriving DecidableEq, Repr

/-- `GenerateLeads.handleEmailSent` (lines 484-488): the in-memory update sets
only the sent flag. -/
def handleEmailSentGenerate (l : GeneratedLead) : GeneratedLead :=
  { l with email_sent := true }

/-- `History.handleEmailSent` (lines 332-336): the in-memory update sets the
sent flag and the sent timestamp together. -/
def handleEmailSentHistory (r : LeadRow) (t : List Char) : LeadRow :=
  markSent r t

/-! ## `History` filter / pagination view model -/

/-- The columns of a `lead_history` row used by filtering. -/
structure LeadHistory where
  name : List Char
  company : List Char
  title : List Char
  generated_email : Option (List Char)
  email_sent : Bool
deriving DecidableEq, Repr

/-- One search-term test of `filterLeads`: case-insensitive substring match in
name, company or title. -/
def matchesSearch (searchTerm : List Char) (l : LeadHistory) : Bool :=
  includesL (toLowerL searchTerm) (toLowerL l.name) ||
  includesL (toLowerL searchTerm) (toLowerL l.company) ||
  includesL (toLowerL searchTerm) (toLowerL l.title)

/-- The status-filter predicate of `filterLeads` (unknown filter values pass). -/
def statusPass (statusFilter : List Char) (l : LeadHistory) : Bool :=
  if statusFilter = "sent".data then l.email_sent
  else if statusFilter = "generated".data then
    genTruthy l.generated_email && !l.email_sent
  else if statusFilter = "no-email".data then !genTruthy l.generated_email
  else true

/-- `History.filterLeads`: search filter (skipped for an empty term), then
status filter (skipped for `all`). -/
def filterLeads (leads : List LeadHistory) (searchTerm statusFilter : List Char) :
    List LeadHistory :=
  let f1 := if searchTerm.isEmpty then leads else leads.filter (matchesSearch searchTerm)
  if statusFilter = "all".data then f1 else f1.filter (statusPass statusFilter)

/-- `leadsPerPage = 10`. -/
def leadsPerPage : Nat := 10

/-- `filteredLeads.slice((currentPage - 1) * leadsPerPage, currentPage * leadsPerPage)`. -/
def paginatedLeads (filtered : List LeadHistory) (currentPage : Nat) : List LeadHistory :=
  (filtered.drop ((currentPage - 1) * leadsPerPage)).take leadsPerPage

/-- `Math.ceil(filteredLeads.length / leadsPerPage)`. -/
def totalPages (filtered : List LeadHistory) : Nat :=
  (filtered.length + leadsPerPage - 1) / leadsPerPage

/-- The `History` page state touched by searching / filtering / paging. -/
structure HistoryView where
  leads : List LeadHistory
  searchTerm : List Char
  statusFilter : List Char
  currentPage : Nat
deriving DecidableEq, Repr

/-- The search `Input`'s `onChange`: `setSearchTerm` only (no other state write). -/
def setSearchTerm (st : HistoryView) (t : List Char) : HistoryView :=
  { st with searchTerm := t }

/-- The status `Select`'s `onValueChange`: `setStatusFilter` only. -/
def setStatusFilter (st : HistoryView) (f : List Char) : HistoryView :=
  { st with statusFilter := f }

/-- The page slice the table renders for a given view state. -/
def visibleLeads (st : HistoryView) : List LeadHistory :=
  paginatedLeads (filterLeads st.leads st.searchTerm st.statusFilter) st.currentPage

/-- Content of the fifth response shape: labeled subject and body lines. -/
def shape5Render (s b : List Char) : List Char :=
  "Subject: ".data ++ (s ++ '\n' :: ("Body: ".data ++ b))

/-- A scan for a blank line (the `\n\n` terminator of the body regex). -/
def hasBlankLine : List Char → Bool
  | [] => false
  | c :: tl => (c = '\n' && headIs '\n' tl) || hasBlankLine tl

/-! ## Basic lemmas about the string primitives -/

theorem skipWs_cons_not (c : Char) (l : List Char) (h : jsonWS c = false) :
    skipWs (c :: l) = c :: l := by
  simp [skipWs, h]

theorem dropWS_length_le (l : List Char) : (dropWS l).length ≤ l.length := by
  induction l with
  | nil => simp [dropWS]
  | cons c tl ih =>
    by_cases h : jsWS c = true
    · simp only [dropWS, h, if_true]
      exact Nat.le_trans ih (Nat.le_succ _)
    · simp only [dropWS, Bool.not_eq_true] at *
      simp [h]

theorem jsTrim_length_le (l : List Char) : (jsTrim l).length ≤ l.length := by
  unfold jsTrim
  calc (dropWS ((dropWS l).reverse)).reverse.length
      = (dropWS ((dropWS l).reverse)).length := by simp
    _ ≤ (dropWS l).reverse.length := dropWS_length_le _
    _ = (dropWS l).length := by simp
    _ ≤ l.length := dropWS_length_le _

theorem jsTrim_head_not_ws (c : Char) (tl : List Char) (h : jsTrim (c :: tl) = c :: tl) :
    jsWS c = false := by
  by_contra hws
  simp only [Bool.not_eq_false] at hws
  have h1 : jsTrim (c :: tl) = jsTrim tl := by
    unfold jsTrim
    simp [dropWS, hws]
  have h2 : (jsTrim tl).length ≤ tl.length := jsTrim_length_le tl
  rw [h] at h1
  have : (c :: tl).length = (jsTrim tl).length := by rw [h1]
  simp at this
  omega

theorem wsRun_eq_zero (s : List Char) (h : jsTrim s = s) (X : List Char)
    (hne : s ≠ []) : wsRun (s ++ X) = 0 := by
  match s, hne with
  | c :: tl, _ =>
    have := jsTrim_head_not_ws c tl h
    simp [wsRun, this]

theorem wsRun_space_cons (l : List Char) :
    wsRun (' ' :: l) = 1 + wsRun l := by
  have : jsWS ' ' = true := by decide
  simp [wsRun, this, Nat.add_comm]

theorem capRun_to_newline (s : List Char) (tl : List Char) (hne : s ≠ [])
    (hdot : ∀ c ∈ s, dotChar c = true) :
    capRun (s ++ '\n' :: tl) = some (s, true) := by
  induction s with
  | nil => exact absurd rfl hne
  | cons a s' ih =>
    have ha : dotChar a = true := hdot a (by simp)
    match s' with
    | [] =>
      show capRun (a :: '\n' :: tl) = some ([a], true)
      simp [capRun, ha]
    | b :: s'' =>
      have hb : dotChar b = true := hdot b (by simp)
      have hbn : b ≠ '\n' := by
        intro he
        rw [he] at hb
        simp [dotChar] at hb
      show capRun (a :: ((b :: s'') ++ '\n' :: tl)) = some (a :: b :: s'', true)
      have hrec := ih (by simp) (fun c hc => hdot c (by simp [hc]))
      simp only [List.cons_append] at hrec ⊢
      simp [capRun, ha, hbn, hrec]

theorem bodyCap_no_blank (b : List Char) (h : hasBlankLine b = false) :
    bodyCap b = (b, false) := by
  induction b with
  | nil => rfl
  | cons c tl ih =>
    simp only [hasBlankLine, Bool.or_eq_false_iff] at h
    simp [bodyCap, h.1, ih h.2]

/-! ## Case-insensitive matching lemmas -/

theorem ciStarts_append_left (p X Y : List Char) (h : p.length ≤ X.length) :
    ciStarts p (X ++ Y) = ciStarts p X := by
  induction p generalizing X with
  | nil => simp [ciStarts]
  | cons pc pr ih =>
    match X with
    | [] => simp at h
    | x :: X' =>
      simp only [List.cons_append, ciStarts, List.append_eq]
      simp only [List.length_cons, Nat.add_le_add_iff_right] at h
      rw [ih X' h]

theorem ciStarts_split (p q l : List Char) (h : ciStarts (p ++ q) l = true) :
    ciStarts q (l.drop p.length) = true := by
  induction p generalizing l with
  | nil => simpa using h
  | cons pc pr ih =>
    match l with
    | [] =>
      rw [ciStarts.eq_def] at h
      simp at h
    | c :: l' =>
      simp only [List.cons_append, ciStarts, Bool.and_eq_true] at h
      simpa using ih l' h.2

theorem ciStarts_newline_window (p X Y : List Char) (hlen : X.length < p.length)
    (hnl : ∀ c ∈ p, c.toLower ≠ '\n') :
    ciStarts p (X ++ '\n' :: Y) = false := by
  induction p generalizing X with
  | nil => simp at hlen
  | cons pc pr ih =>
    match X with
    | [] =>
      have h1 : pc.toLower ≠ '\n' := hnl pc (by simp)
      have h2 : Char.toLower '\n' = '\n' := by decide
      simp only [List.nil_append, ciStarts, h2]
      simp [h1]
    | x :: X' =>
      simp only [List.length_cons, Nat.add_lt_add_iff_right] at hlen
      have := ih X' hlen (fun c hc => hnl c (by simp [hc]))
      simp only [List.cons_append, ciStarts, List.append_eq, this, Bool.and_false]

theorem ciFind_none_no_occurrence (p l : List Char) (h : ciFind p l = none) :
    ∀ j, ciStarts p (l.drop j) = false := by
  induction l with
  | nil =>
    intro j
    rw [ciFind.eq_def] at h
    by_cases hp : p = []
    · simp [hp, List.isEmpty_iff] at h
    · match p, hp with
      | pc :: pr, _ => simp [ciStarts]
  | cons c tl ih =>
    intro j
    rw [ciFind.eq_def] at h
    by_cases hs : ciStarts p (c :: tl) = true
    · simp [hs] at h
    · simp only [Bool.not_eq_true] at hs
      simp [hs] at h
      match j with
      | 0 => simpa using hs
      | j' + 1 => simpa using ih h j'

/-! ## Escape / string-literal round trip -/

theorem hexVal_hexDig : ∀ d, d < 16 → hexVal (hexDig d) = some d := by decide

theorem parseStrBody_u (hi lo : Nat) (hhi : hi < 2) (hlo : lo < 16) (tl3 : List Char) :
    parseStrBody ('\\' :: 'u' :: '0' :: '0' :: hexDig hi :: hexDig lo :: tl3) =
      (parseStrBody tl3).map (fun p => (Char.ofNat (hi * 16 + lo) :: p.1, p.2)) := by
  interval_cases hi <;> interval_cases lo <;> exact rfl

theorem parseStrBody_plain (c : Char) (tl : List Char) (h1 : c ≠ '"') (h2 : c ≠ '\\')
    (h8 : ¬ c.toNat < 32) :
    parseStrBody (c :: tl) = (parseStrBody tl).map (fun p => (c :: p.1, p.2)) := by
  rw [parseStrBody.eq_def]
  simp [h1, h2, h8]

theorem parseStrBody_escape (s rest : List Char) :
    parseStrBody (escape s ++ '"' :: rest) = some (s, rest) := by
  induction s with
  | nil => exact rfl
  | cons c tl ih =>
    show parseStrBody ((escChar c ++ escape tl) ++ '"' :: rest) = _
    rw [List.append_assoc]
    unfold escChar
    by_cases h1 : c = '"'
    · subst h1
      show (parseStrBody (escape tl ++ '"' :: rest)).map (fun p => ('"' :: p.1, p.2)) = _
      rw [ih]
      exact rfl
    by_cases h2 : c = '\\'
    · subst h2
      simp only [if_neg h1, if_pos rfl]
      show (parseStrBody (escape tl ++ '"' :: rest)).map (fun p => ('\\' :: p.1, p.2)) = _
      rw [ih]
      exact rfl
    by_cases h3 : c = '\n'
    · subst h3
      simp only [if_neg h1, if_neg h2, if_pos rfl]
      show (parseStrBody (escape tl ++ '"' :: rest)).map (fun p => ('\n' :: p.1, p.2)) = _
      rw [ih]
      exact rfl
    by_cases h4 : c = '\r'
    · subst h4
      simp only [if_neg h1, if_neg h2, if_neg h3, if_pos rfl]
      show (parseStrBody (escape tl ++ '"' :: rest)).map (fun p => ('\r' :: p.1, p.2)) = _
      rw [ih]
      exact rfl
    by_cases h5 : c = '\t'
    · subst h5
      simp only [if_neg h1, if_neg h2, if_neg h3, if_neg h4, if_pos rfl]
      show (parseStrBody (escape tl ++ '"' :: rest)).map (fun p => ('\t' :: p.1, p.2)) = _
      rw [ih]
      exact rfl
    by_cases h6 : c = '\x08'
    · subst h6
      simp only [if_neg h1, if_neg h2, if_neg h3, if_neg h4, if_neg h5, if_pos rfl]
      show (parseStrBody (escape tl ++ '"' :: rest)).map (fun p => ('\x08' :: p.1, p.2)) = _
      rw [ih]
      exact rfl
    by_cases h7 : c = '\x0c'
    · subst h7
      simp only [if_neg h1, if_neg h2, if_neg h3, if_neg h4, if_neg h5, if_neg h6, if_pos rfl]
      show (parseStrBody (escape tl ++ '"' :: rest)).map (fun p => ('\x0c' :: p.1, p.2)) = _
      rw [ih]
      exact rfl
    by_cases h8 : c.toNat < 32
    · simp only [if_neg h1, if_neg h2, if_neg h3, if_neg h4, if_neg h5, if_neg h6, if_neg h7,
        if_pos h8, List.cons_append, List.nil_append]
      have hdiv : c.toNat / 16 < 2 := by omega
      have hmod : c.toNat % 16 < 16 := by omega
      rw [parseStrBody_u _ _ hdiv hmod, ih]
      have hn : c.toNat / 16 * 16 + c.toNat % 16 = c.toNat := by omega
      rw [hn, Char.ofNat_toNat]
      exact rfl
    · simp only [if_neg h1, if_neg h2, if_neg h3, if_neg h4, if_neg h5, if_neg h6, if_neg h7,
        if_neg h8, List.cons_append, List.nil_append]
      rw [parseStrBody_plain c _ h1 h2 h8, ih]
      exact rfl

/-! ## Parser / serializer round trip -/

theorem pv_null (f : Nat) (rest : List Char) :
    parseVal (f + 1) (['n', 'u', 'l', 'l'] ++ rest) = some (.jnull, rest) := rfl

theorem pv_true (f : Nat) (rest : List Char) :
    parseVal (f + 1) (['t', 'r', 'u', 'e'] ++ rest) = some (.jbool true, rest) := rfl

theorem pv_false (f : Nat) (rest : List Char) :
    parseVal (f + 1) (['f', 'a', 'l', 's', 'e'] ++ rest) = some (.jbool false, rest) := rfl

theorem pv_str (f : Nat) (s rest : List Char) :
    parseVal (f + 1) ('"' :: (escape s ++ '"' :: rest)) = some (.jstr s, rest) := by
  show (parseStrBody (escape s ++ '"' :: rest)).map (fun p => (JVal.jstr p.1, p.2)) = _
  rw [parseStrBody_escape]
  exact rfl

theorem pv_arrNil (f : Nat) (rest : List Char) :
    parseVal (f + 1) ('[' :: ']' :: rest) = some (.jarr [], rest) := rfl

theorem pv_objNil (f : Nat) (rest : List Char) :
    parseVal (f + 1) (lbrace :: rbrace :: rest) = some (.jobj [], rest) := rfl

theorem pv_arr_eq (f : Nat) (tl : List Char) :
    parseVal (f + 1) ('[' :: tl) =
      (if headIs ']' (skipWs tl) then some (.jarr [], (skipWs tl).tail)
       else
         match parseVal f (skipWs tl) with
         | some (v, r) =>
           (match parseElemsTail f r with
            | some (xs, r2) => some (.jarr (v :: xs), r2)
            | none => none)
         | none => none) := rfl

theorem pv_obj_eq (f : Nat) (tl : List Char) :
    parseVal (f + 1) (lbrace :: tl) =
      (if headIs rbrace (skipWs tl) then some (.jobj [], (skipWs tl).tail)
       else
         match parseOneField f (skipWs tl) with
         | some (kv, r) =>
           (match parseFieldsTail f r with
            | some (fs, r2) => some (.jobj (kv :: fs), r2)
            | none => none)
         | none => none) := rfl

theorem pof_eq (f : Nat) (cs : List Char) :
    parseOneField (f + 1) cs =
      (if headIs '"' cs then
        match parseStrBody cs.tail with
        | some (k, r) =>
          if headIs ':' (skipWs r) then
            match parseVal f (skipWs (skipWs r).tail) with
            | some (v, r3) => some ((k, v), r3)
            | none => none
          else none
        | none => none
      else none) := rfl

theorem pet_eq (f : Nat) (cs : List Char) :
    parseElemsTail (f + 1) cs =
      (if headIs ']' (skipWs cs) then some ([], (skipWs cs).tail)
       else if headIs ',' (skipWs cs) then
         match parseVal f (skipWs (skipWs cs).tail) with
         | some (v, r) =>
           (match parseElemsTail f r with
            | some (xs, r2) => some (v :: xs, r2)
            | none => none)
         | none => none
       else none) := rfl

theorem pft_eq (f : Nat) (cs : List Char) :
    parseFieldsTail (f + 1) cs =
      (if headIs rbrace (skipWs cs) then some ([], (skipWs cs).tail)
       else if headIs ',' (skipWs cs) then
         match parseOneField f (skipWs (skipWs cs).tail) with
         | some (kv, r) =>
           (match parseFieldsTail f r with
            | some (fs, r2) => some (kv :: fs, r2)
            | none => none)
         | none => none
       else none) := rfl

theorem strVal_head (v : JVal) (hnf : numFree v = true) :
    ∃ c l, strVal v = c :: l ∧
      (c = 'n' ∨ c = 't' ∨ c = 'f' ∨ c = '"' ∨ c = '[' ∨ c = lbrace) := by
  cases v with
  | jnull => exact ⟨'n', _, rfl, by simp⟩
  | jbool b =>
    cases b
    · exact ⟨'f', _, rfl, by simp⟩
    · exact ⟨'t', _, rfl, by simp⟩
  | jnum n => simp [numFree] at hnf
  | jstr s => exact ⟨'"', _, rfl, by simp⟩
  | jarr xs =>
    match xs with
    | [] => exact ⟨'[', _, rfl, by simp⟩
    | x :: xs' => exact ⟨'[', _, rfl, by simp⟩
  | jobj fs =>
    match fs with
    | [] => exact ⟨lbrace, _, rfl, by simp⟩
    | (k, v) :: fs' => exact ⟨lbrace, _, rfl, by simp⟩

theorem skipWs_strVal (v : JVal) (hnf : numFree v = true) (X : List Char) :
    skipWs (strVal v ++ X) = strVal v ++ X := by
  obtain ⟨c, l, hc, hd⟩ := strVal_head v hnf
  rw [hc]
  have hws : jsonWS c = false := by
    rcases hd with h | h | h | h | h | h <;> subst h <;> decide
  simp only [List.cons_append]
  exact skipWs_cons_not c _ hws

theorem headIs_rsq_strVal (v : JVal) (hnf : numFree v = true) (X : List Char) :
    headIs ']' (strVal v ++ X) = false := by
  obtain ⟨c, l, hc, hd⟩ := strVal_head v hnf
  rw [hc]
  simp only [List.cons_append, headIs]
  rcases hd with h | h | h | h | h | h <;> subst h <;> decide

theorem parseRT : ∀ fuel : Nat,
    (∀ v rest, numFree v = true → (strVal v).length + rest.length < fuel →
      parseVal fuel (strVal v ++ rest) = some (v, rest)) ∧
    (∀ xs rest, numFree.numFreeL xs = true →
      (strVal.strElemsTail xs).length + rest.length + 1 < fuel →
      parseElemsTail fuel (strVal.strElemsTail xs ++ ']' :: rest) = some (xs, rest)) ∧
    (∀ fs rest, numFree.numFreeF fs = true →
      (strVal.strFieldsTail fs).length + rest.length + 1 < fuel →
      parseFieldsTail fuel (strVal.strFieldsTail fs ++ rbrace :: rest) = some (fs, rest)) ∧
    (∀ k v rest, numFree v = true →
      (escape k).length + (strVal v).length + rest.length + 1 < fuel →
      parseOneField fuel ('"' :: (escape k ++ '"' :: ':' :: (strVal v ++ rest))) =
        some ((k, v), rest)) := by
  intro fuel
  induction fuel using Nat.strong_induction_on with
  | _ fuel IH =>
    match fuel, IH with
    | 0, _ =>
      refine ⟨?_, ?_, ?_, ?_⟩ <;> (intros; omega)
    | f + 1, IH =>
      obtain ⟨ihA, ihB, ihC, ihD⟩ := IH f (Nat.lt_succ_self f)
      refine ⟨?_, ?_, ?_, ?_⟩
      · intro v rest hnf hb
        cases v with
        | jnull => exact pv_null f rest
        | jbool b =>
          cases b
          · exact pv_false f rest
          · exact pv_true f rest
        | jnum n => simp [numFree] at hnf
        | jstr s =>
          have hshape : strVal (.jstr s) ++ rest = '"' :: (escape s ++ '"' :: rest) := by
            simp [strVal]
          rw [hshape, pv_str]
        | jarr xs =>
          match xs with
          | [] => exact pv_arrNil f rest
          | x :: xs' =>
            have hx : numFree x = true ∧ numFree.numFreeL xs' = true := by
              simpa [numFree, numFree.numFreeL, Bool.and_eq_true] using hnf
            have hshape : strVal (.jarr (x :: xs')) ++ rest =
                '[' :: (strVal x ++ (strVal.strElemsTail xs' ++ ']' :: rest)) := by
              simp [strVal]
            rw [hshape, pv_arr_eq, skipWs_strVal x hx.1,
              headIs_rsq_strVal x hx.1]
            simp only [Bool.false_eq_true, if_false]
            simp only [strVal, List.length_append, List.length_cons] at hb
            rw [ihA x _ hx.1 (by simp only [List.length_append, List.length_cons]; omega)]
            simp [ihB xs' rest hx.2 (by omega)]
        | jobj fs =>
          match fs with
          | [] => exact pv_objNil f rest
          | (k, v) :: fs' =>
            have hx : numFree v = true ∧ numFree.numFreeF fs' = true := by
              simpa [numFree, numFree.numFreeF, Bool.and_eq_true] using hnf
            have hshape : strVal (.jobj ((k, v) :: fs')) ++ rest =
                lbrace :: ('"' :: (escape k ++ '"' :: ':' ::
                  (strVal v ++ (strVal.strFieldsTail fs' ++ rbrace :: rest)))) := by
              simp [strVal]
            rw [hshape, pv_obj_eq]
            rw [skipWs_cons_not '"' _ (by decide)]
            have hh : headIs rbrace ('"' :: (escape k ++ '"' :: ':' ::
                (strVal v ++ (strVal.strFieldsTail fs' ++ rbrace :: rest)))) = false := by
              simp only [headIs]
              decide
            rw [hh]
            simp only [Bool.false_eq_true, if_false]
            simp only [strVal, List.length_append, List.length_cons] at hb
            rw [ihD k v _ hx.1 (by simp only [List.length_append, List.length_cons]; omega)]
            simp [ihC fs' rest hx.2 (by omega)]
      · intro xs rest hnf hb
        match xs with
        | [] =>
          show parseElemsTail (f + 1) (']' :: rest) = some ([], rest)
          exact rfl
        | x :: tl =>
          have hx : numFree x = true ∧ numFree.numFreeL tl = true := by
            simpa [numFree.numFreeL, Bool.and_eq_true] using hnf
          have hshape : strVal.strElemsTail (x :: tl) ++ ']' :: rest =
              ',' :: (strVal x ++ (strVal.strElemsTail tl ++ ']' :: rest)) := by
            simp [strVal.strElemsTail]
          rw [hshape, pet_eq, skipWs_cons_not ',' _ (by decide)]
          have h1 : headIs ']' (',' :: (strVal x ++ (strVal.strElemsTail tl ++ ']' :: rest)))
              = false := by simp [headIs]
          have h2 : headIs ',' (',' :: (strVal x ++ (strVal.strElemsTail tl ++ ']' :: rest)))
              = true := by simp [headIs]
          rw [h1, h2]
          simp only [Bool.false_eq_true, if_false, if_true, List.tail_cons]
          rw [skipWs_strVal x hx.1]
          simp only [strVal.strElemsTail, List.length_append, List.length_cons] at hb
          rw [ihA x _ hx.1 (by simp only [List.length_append, List.length_cons]; omega)]
          have hbb : (strVal.strElemsTail tl).length + rest.length + 1 < f := by omega
          simp [ihB tl rest hx.2 hbb]
      · intro fs rest hnf hb
        match fs with
        | [] =>
          show parseFieldsTail (f + 1) (rbrace :: rest) = some ([], rest)
          exact rfl
        | (k, v) :: tl =>
          have hx : numFree v = true ∧ numFree.numFreeF tl = true := by
            simpa [numFree.numFreeF, Bool.and_eq_true] using hnf
          have hshape : strVal.strFieldsTail ((k, v) :: tl) ++ rbrace :: rest =
              ',' :: ('"' :: (escape k ++ '"' :: ':' ::
                (strVal v ++ (strVal.strFieldsTail tl ++ rbrace :: rest)))) := by
            simp [strVal.strFieldsTail]
          rw [hshape, pft_eq, skipWs_cons_not ',' _ (by decide)]
          have h1 : headIs rbrace (',' :: ('"' :: (escape k ++ '"' :: ':' ::
              (strVal v ++ (strVal.strFieldsTail tl ++ rbrace :: rest))))) = false := by
            simp only [headIs]
            decide
          have h2 : headIs ',' (',' :: ('"' :: (escape k ++ '"' :: ':' ::
              (strVal v ++ (strVal.strFieldsTail tl ++ rbrace :: rest))))) = true := by
            simp [headIs]
          rw [h1, h2]
          simp only [Bool.false_eq_true, if_false, if_true, List.tail_cons]
          rw [skipWs_cons_not '"' _ (by decide)]
          simp only [strVal.strFieldsTail, List.length_append, List.length_cons] at hb
          rw [ihD k v _ hx.1 (by simp only [List.length_append, List.length_cons]; omega)]
          simp [ihC tl rest hx.2 (by omega)]
      · intro k v rest hnf hb
        rw [pof_eq]
        have h0 : headIs '"' ('"' :: (escape k ++ '"' :: ':' :: (strVal v ++ rest))) = true := by
          simp [headIs]
        rw [h0]
        simp only [if_true, List.tail_cons]
        rw [parseStrBody_escape]
        have e1 : skipWs (':' :: (strVal v ++ rest)) = ':' :: (strVal v ++ rest) :=
          skipWs_cons_not ':' _ (by decide)
        have h1 : headIs ':' (':' :: (strVal v ++ rest)) = true := by simp [headIs]
        simp only [e1, h1, if_true, List.tail_cons, skipWs_strVal v hnf]
        simp [ihA v rest hnf (by omega)]

/-- `JSON.parse` inverts `JSON.stringify` on number-free values. -/
theorem parse_strVal (v : JVal) (hnf : numFree v = true) : parse (strVal v) = some v := by
  obtain ⟨c, l, hc, hd⟩ := strVal_head v hnf
  have hskip : skipWs (strVal v) = strVal v := by
    have := skipWs_strVal v hnf []
    simpa using this
  have hA := (parseRT ((strVal v).length + 1)).1 v [] hnf (by simp)
  simp only [List.append_nil] at hA
  unfold parse
  show (match parseVal ((skipWs (strVal v)).length + 1) (skipWs (strVal v)) with
        | some (w, rest) => if skipWs rest = [] then some w else none
        | none => none) = some v
  rw [hskip, hA]
  exact rfl

/-! ## Decoding the rendered response shapes -/

/-- Shape-1 content: `[ \x7b "output": \x7b "Subject Line": s, "Email Body": b \x7d \x7d ]`. -/
def shape1Render (s b : List Char) : List Char :=
  strVal (.jarr [.jobj [(outKey, .jobj [(slKey, .jstr s), (ebKey, .jstr b)])]])

/-- Shape-2 content: `\x7b "Subject Line": s, "Email Body": b \x7d`. -/
def shape2Render (s b : List Char) : List Char :=
  strVal (.jobj [(slKey, .jstr s), (ebKey, .jstr b)])

/-- Shape-3 content (legacy): `\x7b "subject": s, "body": b \x7d`. -/
def shape3Render (s b : List Char) : List Char :=
  strVal (.jobj [(subjKey, .jstr s), (bodyKey, .jstr b)])

/-- Shape-4 content: `[ \x7b "Subject Line": s, "Email Body": b \x7d ]`. -/
def shape4Render (s b : List Char) : List Char :=
  strVal (.jarr [.jobj [(slKey, .jstr s), (ebKey, .jstr b)]])

theorem truthy_jstr (s : List Char) (h : s ≠ []) : truthy (some (.jstr s)) = true := by
  match s, h with
  | c :: tl, _ => rfl

theorem strVal_not_empty (v : JVal) (hnf : numFree v = true) :
    (strVal v).isEmpty = false := by
  obtain ⟨c, l, hc, _⟩ := strVal_head v hnf
  rw [hc]
  rfl

theorem shape1_render_eval (s b : List Char) (hs : s ≠ []) (hb : b ≠ []) :
    shape1 (.jarr [.jobj [(outKey, .jobj [(slKey, .jstr s), (ebKey, .jstr b)])]]) =
      some (.jstr s, .jstr b) := by
  have g1 : getField (.jobj [(outKey, .jobj [(slKey, .jstr s), (ebKey, .jstr b)])]) outKey =
      some (.jobj [(slKey, .jstr s), (ebKey, .jstr b)]) := rfl
  have g2 : getField (.jobj [(slKey, .jstr s), (ebKey, .jstr b)]) slKey = some (.jstr s) := rfl
  have g3 : getField (.jobj [(slKey, .jstr s), (ebKey, .jstr b)]) ebKey = some (.jstr b) := rfl
  have t1 : truthy (some (.jobj [(slKey, .jstr s), (ebKey, .jstr b)])) = true := rfl
  simp only [shape1, g1, t1, g2, g3, truthy_jstr s hs, truthy_jstr b hb,
    Bool.and_self, if_true, Option.getD_some]

theorem shape2_render_eval (s b : List Char) (hs : s ≠ []) (hb : b ≠ []) :
    shape2 (.jobj [(slKey, .jstr s), (ebKey, .jstr b)]) = some (.jstr s, .jstr b) := by
  have g2 : getField (.jobj [(slKey, .jstr s), (ebKey, .jstr b)]) slKey = some (.jstr s) := rfl
  have g3 : getField (.jobj [(slKey, .jstr s), (ebKey, .jstr b)]) ebKey = some (.jstr b) := rfl
  simp only [shape2, g2, g3, truthy_jstr s hs, truthy_jstr b hb, Bool.and_self, if_true,
    Option.getD_some]

theorem shape3_render_eval (s b : List Char) (hs : s ≠ []) (hb : b ≠ []) :
    shape3 (.jobj [(subjKey, .jstr s), (bodyKey, .jstr b)]) = some (.jstr s, .jstr b) := by
  have g2 : getField (.jobj [(subjKey, .jstr s), (bodyKey, .jstr b)]) subjKey =
      some (.jstr s) := rfl
  have g3 : getField (.jobj [(subjKey, .jstr s), (bodyKey, .jstr b)]) bodyKey =
      some (.jstr b) := rfl
  simp only [shape3, g2, g3, truthy_jstr s hs, truthy_jstr b hb, Bool.and_self, if_true,
    Option.getD_some]

theorem shape4_render_eval (s b : List Char) (hs : s ≠ []) (hb : b ≠ []) :
    shape4 (.jarr [.jobj [(slKey, .jstr s), (ebKey, .jstr b)]]) = some (.jstr s, .jstr b) := by
  have g2 : getField (.jobj [(slKey, .jstr s), (ebKey, .jstr b)]) slKey = some (.jstr s) := rfl
  have g3 : getField (.jobj [(slKey, .jstr s), (ebKey, .jstr b)]) ebKey = some (.jstr b) := rfl
  simp only [shape4, g2, g3, truthy_jstr s hs, truthy_jstr b hb, Bool.and_self, if_true,
    Option.getD_some]

theorem pec_shape1 (company : Option (List Char)) (s b : List Char) (hs : s ≠ []) (hb : b ≠ []) :
    parseEmailContent company (shape1Render s b) = (.jstr s, .jstr b) := by
  unfold parseEmailContent shape1Render
  have hnf : numFree (JVal.jarr [.jobj [(outKey, .jobj [(slKey, .jstr s), (ebKey, .jstr b)])]])
      = true := rfl
  simp only [strVal_not_empty _ hnf, parse_strVal _ hnf]
  simp [jsonShapes, shape1_render_eval s b hs hb]

theorem pec_shape2 (company : Option (List Char)) (s b : List Char) (hs : s ≠ []) (hb : b ≠ []) :
    parseEmailContent company (shape2Render s b) = (.jstr s, .jstr b) := by
  unfold parseEmailContent shape2Render
  have hnf : numFree (JVal.jobj [(slKey, .jstr s), (ebKey, .jstr b)]) = true := rfl
  have m1 : shape1 (.jobj [(slKey, .jstr s), (ebKey, .jstr b)]) = none := rfl
  simp only [strVal_not_empty _ hnf, parse_strVal _ hnf]
  simp [jsonShapes, m1, shape2_render_eval s b hs hb]

theorem pec_shape3 (company : Option (List Char)) (s b : List Char) (hs : s ≠ []) (hb : b ≠ []) :
    parseEmailContent company (shape3Render s b) = (.jstr s, .jstr b) := by
  unfold parseEmailContent shape3Render
  have hnf : numFree (JVal.jobj [(subjKey, .jstr s), (bodyKey, .jstr b)]) = true := rfl
  have m1 : shape1 (.jobj [(subjKey, .jstr s), (bodyKey, .jstr b)]) = none := rfl
  have m2 : shape2 (.jobj [(subjKey, .jstr s), (bodyKey, .jstr b)]) = none := rfl
  simp only [strVal_not_empty _ hnf, parse_strVal _ hnf]
  simp [jsonShapes, m1, m2, shape3_render_eval s b hs hb]

theorem pec_shape4 (company : Option (List Char)) (s b : List Char) (hs : s ≠ []) (hb : b ≠ []) :
    parseEmailContent company (shape4Render s b) = (.jstr s, .jstr b) := by
  unfold parseEmailContent shape4Render
  have hnf : numFree (JVal.jarr [.jobj [(slKey, .jstr s), (ebKey, .jstr b)]]) = true := rfl
  have m1 : shape1 (.jarr [.jobj [(slKey, .jstr s), (ebKey, .jstr b)]]) = none := by
    have g1 : getField (.jobj [(slKey, .jstr s), (ebKey, .jstr b)]) outKey = none := rfl
    simp only [shape1, g1]
  have m2 : shape2 (.jarr [.jobj [(slKey, .jstr s), (ebKey, .jstr b)]]) = none := rfl
  have m3 : shape3 (.jarr [.jobj [(slKey, .jstr s), (ebKey, .jstr b)]]) = none := rfl
  simp only [strVal_not_empty _ hnf, parse_strVal _ hnf]
  simp [jsonShapes, m1, m2, m3, shape4_render_eval s b hs hb]

theorem pec2_shape3 (company : Option (List Char)) (s b : List Char) (hs : s ≠ []) (hb : b ≠ []) :
    parseEmailContent2 company (shape3Render s b) = (.jstr s, .jstr b) := by
  unfold parseEmailContent2 shape3Render
  have hnf : numFree (JVal.jobj [(subjKey, .jstr s), (bodyKey, .jstr b)]) = true := rfl
  have m1 : shape1 (.jobj [(subjKey, .jstr s), (bodyKey, .jstr b)]) = none := rfl
  have m2 : shape2 (.jobj [(subjKey, .jstr s), (bodyKey, .jstr b)]) = none := rfl
  simp only [strVal_not_empty _ hnf, parse_strVal _ hnf]
  simp [jsonShapes2, m1, m2, shape3_render_eval s b hs hb]

/-! ## The labeled-text shape (text fallback) -/

theorem jsTrim_wsRun (b : List Char) (h : jsTrim b = b) : wsRun b = 0 := by
  match b with
  | [] => rfl
  | c :: tl => simp [wsRun, jsTrim_head_not_ws c tl h]

theorem subjectSearchAux_cons (c : Char) (tl : List Char) (i : Nat) :
    subjectSearchAux (c :: tl) i =
      (match tryLabelS (c :: tl) with
       | some lab =>
         (match subjectTail ((c :: tl).drop lab) with
          | some (k, cap, term) =>
            some ⟨i, lab + k + cap.length + (if term then 1 else 0), cap⟩
          | none => subjectSearchAux tl (i + 1))
       | none => subjectSearchAux tl (i + 1)) := rfl

theorem bodySearchAux_cons (c : Char) (tl : List Char) (i : Nat) :
    bodySearchAux (c :: tl) i =
      (match tryLabelB (c :: tl) with
       | some lab =>
         some ⟨i, lab + wsRun ((c :: tl).drop lab) +
           (bodyCap (((c :: tl).drop lab).drop (wsRun ((c :: tl).drop lab)))).1.length +
           (if (bodyCap (((c :: tl).drop lab).drop (wsRun ((c :: tl).drop lab)))).2 then 2
            else 0),
           (bodyCap (((c :: tl).drop lab).drop (wsRun ((c :: tl).drop lab)))).1⟩
       | none => bodySearchAux tl (i + 1)) := rfl

theorem bodySearchAux_skip (pre suf : List Char) (i : Nat)
    (h : ∀ j, j < pre.length → tryLabelB ((pre ++ suf).drop j) = none) :
    bodySearchAux (pre ++ suf) i = bodySearchAux suf (i + pre.length) := by
  induction pre generalizing i with
  | nil => simp
  | cons c tl ih =>
    have h0 : tryLabelB (c :: (tl ++ suf)) = none := by
      have := h 0 (by simp)
      simpa using this
    rw [List.cons_append, bodySearchAux_cons, h0]
    have hrec := ih (i + 1) (fun j hj => by
      have := h (j + 1) (by simpa using Nat.succ_lt_succ hj)
      simpa using this)
    simp only [hrec, List.length_cons]
    have : i + 1 + tl.length = i + (tl.length + 1) := by omega
    rw [this]

theorem bodySearchAux_label (cs : List Char) (i lab k : Nat) (cap : List Char) (term : Bool)
    (hlab : tryLabelB cs = some lab) (hk : wsRun (cs.drop lab) = k)
    (hcap : bodyCap ((cs.drop lab).drop k) = (cap, term)) (hcs : cs ≠ []) :
    bodySearchAux cs i = some ⟨i, lab + k + cap.length + (if term then 2 else 0), cap⟩ := by
  match cs, hcs with
  | c :: tl, _ =>
    rw [bodySearchAux_cons, hlab]
    rw [List.drop_drop] at hcap
    simp [hk, hcap]

theorem subjectSearchAux_label (cs : List Char) (i lab k : Nat) (cap : List Char) (term : Bool)
    (hlab : tryLabelS cs = some lab) (htail : subjectTail (cs.drop lab) = some (k, cap, term))
    (hcs : cs ≠ []) :
    subjectSearchAux cs i =
      some ⟨i, lab + k + cap.length + (if term then 1 else 0), cap⟩ := by
  match cs, hcs with
  | c :: tl, _ =>
    rw [subjectSearchAux_cons, hlab]
    simp [htail]

theorem subjectSearch_shape5 (s tl0 : List Char) (hne : s ≠ []) (htrim : jsTrim s = s)
    (hdot : ∀ c ∈ s, dotChar c = true) :
    subjectSearch ("Subject: ".data ++ (s ++ '\n' :: tl0)) =
      some ⟨0, 8 + 1 + s.length + 1, s⟩ := by
  have hlab : tryLabelS ("Subject: ".data ++ (s ++ '\n' :: tl0)) = some 8 := rfl
  have hdrop : ("Subject: ".data ++ (s ++ '\n' :: tl0)).drop 8 = ' ' :: (s ++ '\n' :: tl0) := rfl
  have hws : wsRun (' ' :: (s ++ '\n' :: tl0)) = 1 := by
    rw [wsRun_space_cons, wsRun_eq_zero s htrim _ hne]
  have hcap : capRun ((' ' :: (s ++ '\n' :: tl0)).drop 1) = some (s, true) := by
    show capRun (s ++ '\n' :: tl0) = some (s, true)
    exact capRun_to_newline s tl0 hne hdot
  have htail : subjectTail (' ' :: (s ++ '\n' :: tl0)) = some (1, s, true) := by
    unfold subjectTail
    rw [hws]
    simp only [subjTailAt, hcap]
  have := subjectSearchAux_label ("Subject: ".data ++ (s ++ '\n' :: tl0)) 0 8 1 s true
    hlab (hdrop ▸ htail) (by simp)
  simpa [subjectSearch] using this

theorem tryLabelB_none_of_no_body (X Y : List Char)
    (hB : ∀ j, ciStarts "body:".data (X.drop j) = false) (j : Nat) (hj : j ≤ X.length) :
    tryLabelB ((X ++ '\n' :: Y).drop j) = none := by
  have hdrop : (X ++ '\n' :: Y).drop j = X.drop j ++ '\n' :: Y := by
    rw [List.drop_append_eq_append_drop]
    have : j - X.length = 0 := by omega
    rw [this]
    rfl
  rw [hdrop]
  have h1 : ciStarts "body:".data (X.drop j ++ '\n' :: Y) = false := by
    by_cases hc : ("body:".data).length ≤ (X.drop j).length
    · rw [ciStarts_append_left _ _ _ hc]
      exact hB j
    · exact ciStarts_newline_window _ _ _ (by omega) (by decide)
  have h2 : ciStarts "email body:".data (X.drop j ++ '\n' :: Y) = false := by
    by_cases hc : ("email body:".data).length ≤ (X.drop j).length
    · rw [ciStarts_append_left _ _ _ hc]
      by_contra hcon
      simp only [Bool.not_eq_false] at hcon
      have hsplit : ciStarts ("email ".data ++ "body:".data) (X.drop j) = true := by
        have heq : "email body:".data = "email ".data ++ "body:".data := by decide
        rw [← heq]
        exact hcon
      have := ciStarts_split "email ".data "body:".data _ hsplit
      rw [List.drop_drop] at this
      have hB' := hB (j + ("email ".data).length)
      rw [hB'] at this
      exact Bool.false_ne_true this
    · exact ciStarts_newline_window _ _ _ (by omega) (by decide)
  simp [tryLabelB, h1, h2]

theorem bodySearch_shape5 (s b : List Char)
    (hnoB : ∀ j, ciStarts "body:".data (("Subject: ".data ++ s).drop j) = false)
    (htrimB : jsTrim b = b) (hblank : hasBlankLine b = false) :
    bodySearch ("Subject: ".data ++ (s ++ '\n' :: ("Body: ".data ++ b))) =
      some ⟨0 + (s.length + 10), 5 + 1 + b.length + 0, b⟩ := by
  have hform : "Subject: ".data ++ (s ++ '\n' :: ("Body: ".data ++ b)) =
      ("Subject: ".data ++ s) ++ '\n' :: ("Body: ".data ++ b) := by
    simp
  unfold bodySearch
  rw [hform]
  have hpre : ("Subject: ".data ++ s) ++ '\n' :: ("Body: ".data ++ b) =
      (("Subject: ".data ++ s) ++ ['\n']) ++ ("Body: ".data ++ b) := by
    simp
  rw [hpre]
  rw [bodySearchAux_skip _ _ 0 (fun j hj => by
    have hj' : j ≤ ("Subject: ".data ++ s).length := by
      simp only [List.length_append, List.length_cons] at hj ⊢
      simpa using Nat.lt_succ_iff.mp (by simpa [Nat.add_comm] using hj)
    have := tryLabelB_none_of_no_body ("Subject: ".data ++ s) ("Body: ".data ++ b) hnoB j hj'
    have harr : (("Subject: ".data ++ s) ++ ['\n']) ++ ("Body: ".data ++ b) =
        ("Subject: ".data ++ s) ++ '\n' :: ("Body: ".data ++ b) := by simp
    rw [harr]
    exact this)]
  have h9 : ("Subject: ".data).length = 9 := rfl
  have hlen : ((("Subject: ".data ++ s) ++ ['\n'])).length = s.length + 10 := by
    simp only [List.length_append, List.length_cons, List.length_nil, h9]
    omega
  rw [hlen]
  have hlab : tryLabelB ("Body: ".data ++ b) = some 5 := rfl
  have hk : wsRun (("Body: ".data ++ b).drop 5) = 1 := by
    show wsRun (' ' :: b) = 1
    rw [wsRun_space_cons, jsTrim_wsRun b htrimB]
  have hcap : bodyCap ((("Body: ".data ++ b).drop 5).drop 1) = (b, false) := by
    show bodyCap b = (b, false)
    exact bodyCap_no_blank b hblank
  exact bodySearchAux_label _ _ 5 1 b false hlab hk hcap (by simp)

/-- Well-formedness of a labeled-text (shape 5) instance: the subject is one
non-empty trimmed line of plain characters with no embedded body label, and the
body is trimmed with no blank line. -/
def textShapeWF (s b : List Char) : Prop :=
  s ≠ [] ∧ jsTrim s = s ∧ (∀ c ∈ s, dotChar c = true) ∧
  (∀ j, j < ("Subject: ".data ++ s).length →
    ciStarts "body:".data (("Subject: ".data ++ s).drop j) = false) ∧
  jsTrim b = b ∧ hasBlankLine b = false

instance textShapeWF_decidable (s b : List Char) : Decidable (textShapeWF s b) := by
  unfold textShapeWF
  exact inferInstance

theorem textShapeWF_no_body (s b : List Char) (h : textShapeWF s b) :
    ∀ j, ciStarts "body:".data (("Subject: ".data ++ s).drop j) = false := by
  intro j
  by_cases hj : j < ("Subject: ".data ++ s).length
  · exact h.2.2.2.1 j hj
  · have hnil : ("Subject: ".data ++ s).drop j = [] :=
      List.drop_eq_nil_of_le (by omega)
    rw [hnil]
    rfl

theorem pec_shape5 (company : Option (List Char)) (s b : List Char) (h : textShapeWF s b) :
    parseEmailContent company (shape5Render s b) = (.jstr s, .jstr b) := by
  have hnoB := textShapeWF_no_body s b h
  obtain ⟨hne, htrim, hdot, _, htrimB, hblank⟩ := h
  have hsm := subjectSearch_shape5 s ("Body: ".data ++ b) hne htrim hdot
  have hbm := bodySearch_shape5 s b hnoB htrimB hblank
  have hparse : parse (shape5Render s b) = none := rfl
  have hempty : (shape5Render s b).isEmpty = false := rfl
  unfold parseEmailContent
  rw [hempty]
  simp only [Bool.false_eq_true, if_false, hparse]
  unfold textFallback
  have hsm' : subjectSearch (shape5Render s b) =
      some ⟨0, 8 + 1 + s.length + 1, s⟩ := hsm
  have hbm' : bodySearch (shape5Render s b) =
      some ⟨0 + (s.length + 10), 5 + 1 + b.length + 0, b⟩ := hbm
  simp [hsm', hbm', htrim, htrimB]

theorem pec2_shape5 (company : Option (List Char)) (s b : List Char) (h : textShapeWF s b) :
    parseEmailContent2 company (shape5Render s b) = (.jstr s, .jstr b) := by
  have hnoB := textShapeWF_no_body s b h
  obtain ⟨hne, htrim, hdot, _, htrimB, hblank⟩ := h
  have hsm := subjectSearch_shape5 s ("Body: ".data ++ b) hne htrim hdot
  have hbm := bodySearch_shape5 s b hnoB htrimB hblank
  have hparse : parse (shape5Render s b) = none := rfl
  have hempty : (shape5Render s b).isEmpty = false := rfl
  unfold parseEmailContent2
  rw [hempty]
  simp only [Bool.false_eq_true, if_false, hparse]
  unfold textFallback
  have hsm' : subjectSearch (shape5Render s b) =
      some ⟨0, 8 + 1 + s.length + 1, s⟩ := hsm
  have hbm' : bodySearch (shape5Render s b) =
      some ⟨0 + (s.length + 10), 5 + 1 + b.length + 0, b⟩ := hbm
  simp [hsm', hbm', htrim, htrimB]

/-- When no JSON shape applies and neither text pattern matches, the decode
synthesizes the default subject and keeps the entire content as the body. -/
theorem pec_no_pattern (company : Option (List Char)) (content : List Char)
    (hne : content ≠ [])
    (hjson : ∀ v, parse content = some v → jsonShapes v = none)
    (hsm : subjectSearch content = none) (hbm : bodySearch content = none) :
    parseEmailContent company content = (.jstr (regardingOf company), .jstr content) := by
  have hempty : content.isEmpty = false := by
    match content, hne with
    | c :: tl, _ => rfl
  unfold parseEmailContent
  rw [hempty]
  simp only [Bool.false_eq_true, if_false]
  have hfall : textFallback company content = (.jstr (regardingOf company), .jstr content) := by
    unfold textFallback
    rw [hsm, hbm]
  match hp : parse content with
  | none => simpa using hfall
  | some v => simp [hjson v hp, hfall]

/-! ## Supporting definitions for the claim statements -/

/-- Order of the shape chain: an object carrying both the canonical and the
legacy key pairs decodes through the canonical shape (shape 2 precedes
shape 3). -/
theorem pec_shape2_beats_shape3 (company : Option (List Char)) (s b ls lb : List Char)
    (hs : s ≠ []) (hb : b ≠ []) :
    parseEmailContent company
        (strVal (.jobj [(slKey, .jstr s), (ebKey, .jstr b),
          (subjKey, .jstr ls), (bodyKey, .jstr lb)])) =
      (.jstr s, .jstr b) := by
  unfold parseEmailContent
  have hnf : numFree (JVal.jobj [(slKey, .jstr s), (ebKey, .jstr b),
      (subjKey, .jstr ls), (bodyKey, .jstr lb)]) = true := rfl
  have m1 : shape1 (.jobj [(slKey, .jstr s), (ebKey, .jstr b),
      (subjKey, .jstr ls), (bodyKey, .jstr lb)]) = none := rfl
  have g2 : getField (.jobj [(slKey, .jstr s), (ebKey, .jstr b),
      (subjKey, .jstr ls), (bodyKey, .jstr lb)]) slKey = some (.jstr s) := rfl
  have g3 : getField (.jobj [(slKey, .jstr s), (ebKey, .jstr b),
      (subjKey, .jstr ls), (bodyKey, .jstr lb)]) ebKey = some (.jstr b) := rfl
  have h2 : shape2 (.jobj [(slKey, .jstr s), (ebKey, .jstr b),
      (subjKey, .jstr ls), (bodyKey, .jstr lb)]) = some (.jstr s, .jstr b) := by
    simp only [shape2, g2, g3, truthy_jstr s hs, truthy_jstr b hb, Bool.and_self, if_true,
      Option.getD_some]
  simp only [strVal_not_empty _ hnf, parse_strVal _ hnf]
  simp [jsonShapes, m1, h2]

/-- Round trip of the canonical save through the first decode variant. -/
theorem pec_handleSave (company : Option (List Char)) (s b : List Char)
    (hs : s ≠ []) (hb : b ≠ []) :
    parseEmailContent company (handleSave (.jstr s) (.jstr b)) = (.jstr s, .jstr b) :=
  pec_shape2 company s b hs hb

/-- Round trip of the legacy save through the second decode variant. -/
theorem pec2_handleSave2 (company : Option (List Char)) (s b : List Char)
    (hs : s ≠ []) (hb : b ≠ []) :
    parseEmailContent2 company (handleSave2 (.jstr s) (.jstr b)) = (.jstr s, .jstr b) :=
  pec2_shape3 company s b hs hb

/-- The key list of a JSON object value. -/
def objKeys : JVal → List (List Char)
  | .jobj fs => fs.map (fun p => p.1)
  | _ => []

/-- A placeholder row used in concrete witnesses. -/
def dummyLead : LeadHistory :=
  { name := [], company := [], title := [], generated_email := none, email_sent := false }

/-- A concrete row holding a generated draft, used in witnesses. -/
def draftRow : LeadRow :=
  { generated_email := some "draft".data, email_sent := false, sent_at := none }

/-- A concrete `History` view state sitting on page 3. -/
def viewOnPage3 : HistoryView :=
  { leads := [], searchTerm := [], statusFilter := "all".data, currentPage := 3 }

/-- A concrete `History` view state sitting on page 1. -/
def viewOnPage1 : HistoryView :=
  { leads := [], searchTerm := [], statusFilter := "all".data, currentPage := 1 }

/-- The sent-flag / sent-timestamp coherence of a row. -/
def sentCoherent (r : LeadRow) : Prop :=
  r.email_sent = r.sent_at.isSome

theorem sentCoherent_applyOp (r : LeadRow) (op : RowOp) (h : sentCoherent r) :
    sentCoherent (applyOp r op) := by
  cases op with
  | insert => rfl
  | generate e => exact h
  | send ok t =>
    unfold sentCoherent at *
    unfold applyOp sendEmailToLead markSent
    by_cases hg : genTruthy r.generated_email = true
    · by_cases hok : ok = true
      · simp [hg, hok]
      · simp only [Bool.not_eq_true] at hok
        simp [hg, hok, h]
    · simp only [Bool.not_eq_true] at hg
      simp [hg, h]

theorem sentCoherent_foldl (ops : List RowOp) (r : LeadRow) (h : sentCoherent r) :
    sentCoherent (ops.foldl applyOp r) := by
  induction ops generalizing r with
  | nil => exact h
  | cons op tl ih => exact ih _ (sentCoherent_applyOp r op h)

/-! ## Claim theorems -/

/-- Claim C1 (counterexample): the round-trip property fails as stated.  The
labeled-text (fifth-shape) input `"Subject: Hola\nBody:"` decodes to the pair
`("Hola", "")`, but encoding that pair with the canonical `handleSave` and
decoding the result again does not reproduce the pair: the empty body makes
the canonical JSON object fail the truthiness checks, so the decode falls back
to text parsing of the JSON text. -/
theorem claim1_roundtrip_counterexample :
    parseEmailContent none "Subject: Hola\nBody:".data = (.jstr "Hola".data, .jstr []) ∧
    parseEmailContent none (handleSave (.jstr "Hola".data) (.jstr [])) ≠
      (.jstr "Hola".data, .jstr []) := by
  constructor
  · decide
  · decide

/-- Claim C1 (amended): for every content whose decode yields a pair with
non-empty subject and body (as every JSON-shape decode and every labeled-text
decode with a non-empty captured body does), saving that pair and decoding the
saved string again yields the identical pair — for the first modal variant
through its canonical `handleSave` and for the second variant through its
legacy `handleSave`. -/
theorem claim1_roundtrip_nonempty (company : Option (List Char)) (content s b : List Char)
    (_hdec : parseEmailContent company content = (.jstr s, .jstr b))
    (hs : s ≠ []) (hb : b ≠ []) :
    parseEmailContent company (handleSave (.jstr s) (.jstr b)) = (.jstr s, .jstr b) ∧
    parseEmailContent2 company (handleSave2 (.jstr s) (.jstr b)) = (.jstr s, .jstr b) :=
  ⟨pec_handleSave company s b hs hb, pec2_handleSave2 company s b hs hb⟩

/-- Witness for C1 at a concrete decoded pair. -/
theorem claim1_roundtrip_nonempty_witness :
    parseEmailContent none (handleSave (.jstr "Hola".data) (.jstr "Saludos".data)) =
      (.jstr "Hola".data, .jstr "Saludos".data) ∧
    parseEmailContent2 none (handleSave2 (.jstr "Hola".data) (.jstr "Saludos".data)) =
      (.jstr "Hola".data, .jstr "Saludos".data) :=
  claim1_roundtrip_nonempty none (shape2Render "Hola".data "Saludos".data)
    "Hola".data "Saludos".data (by decide) (by decide) (by decide)

/-- Claim C2: decoding each of the five known response shapes yields exactly
the subject and body carried by the shape: the array-plus-`output` wrapper, the
flat `"Subject Line"`/`"Email Body"` object, the legacy `subject`/`body`
object, the bare array, and non-JSON text with labeled subject and body lines
(the JSON shapes carry non-empty fields — truthiness — and a labeled-text
instance is well-formed in the sense of `textShapeWF`).  The shapes are
attempted in order with first-match-wins: an object carrying both the
canonical and the legacy key pairs decodes through the canonical shape. -/
theorem claim2_decode_five_shapes (company : Option (List Char)) :
    (∀ s b : List Char, s ≠ [] → b ≠ [] →
      parseEmailContent company (shape1Render s b) = (.jstr s, .jstr b) ∧
      parseEmailContent company (shape2Render s b) = (.jstr s, .jstr b) ∧
      parseEmailContent company (shape3Render s b) = (.jstr s, .jstr b) ∧
      parseEmailContent company (shape4Render s b) = (.jstr s, .jstr b)) ∧
    (∀ s b : List Char, textShapeWF s b →
      parseEmailContent company (shape5Render s b) = (.jstr s, .jstr b)) ∧
    (∀ s b ls lb : List Char, s ≠ [] → b ≠ [] →
      parseEmailContent company
          (strVal (.jobj [(slKey, .jstr s), (ebKey, .jstr b),
            (subjKey, .jstr ls), (bodyKey, .jstr lb)])) =
        (.jstr s, .jstr b)) := by
  refine ⟨?_, ?_, ?_⟩
  · intro s b hs hb
    exact ⟨pec_shape1 company s b hs hb, pec_shape2 company s b hs hb,
      pec_shape3 company s b hs hb, pec_shape4 company s b hs hb⟩
  · intro s b h
    exact pec_shape5 company s b h
  · intro s b ls lb hs hb
    exact pec_shape2_beats_shape3 company s b ls lb hs hb

/-- Witness for C2 at concrete shape instances. -/
theorem claim2_decode_five_shapes_witness :
    parseEmailContent (some "Acme".data) (shape1Render "Hi".data "There".data) =
      (.jstr "Hi".data, .jstr "There".data) ∧
    parseEmailContent (some "Acme".data) (shape5Render "Hi".data "There".data) =
      (.jstr "Hi".data, .jstr "There".data) :=
  ⟨((claim2_decode_five_shapes (some "Acme".data)).1 "Hi".data "There".data
      (by decide) (by decide)).1,
    (claim2_decode_five_shapes (some "Acme".data)).2.1 "Hi".data "There".data (by decide)⟩

/-- Claim C3 (counterexample): the second modal variant's `handleSave` does not
serialize to the canonical `"Subject Line"`/`"Email Body"` object: it persists
the legacy `subject`/`body` object. -/
theorem claim3_encode_counterexample :
    (parse (handleSave2 (.jstr "a".data) (.jstr "b".data))).map objKeys =
      some [subjKey, bodyKey] ∧
    ¬ (parse (handleSave2 (.jstr "a".data) (.jstr "b".data))).map objKeys =
      some [slKey, ebKey] := by
  constructor
  · decide
  · decide

/-- Claim C3 (amended): the first modal variant's `handleSave` serializes every
pair to the JSON object with exactly the two keys `"Subject Line"` and
`"Email Body"`; the second variant's `handleSave` serializes it to the legacy
object with exactly the keys `subject` and `body`. -/
theorem claim3_encode_shapes (s b : List Char) :
    parse (handleSave (.jstr s) (.jstr b)) =
      some (.jobj [(slKey, .jstr s), (ebKey, .jstr b)]) ∧
    parse (handleSave2 (.jstr s) (.jstr b)) =
      some (.jobj [(subjKey, .jstr s), (bodyKey, .jstr b)]) :=
  ⟨parse_strVal _ rfl, parse_strVal _ rfl⟩

/-- Claim C4: starting from the inserted row, every sequence of the
repository's row operations (insert, draft update, send attempt) preserves the
coherence of the sent flag and the sent timestamp: after any operation the row
has `email_sent` true exactly when `sent_at` is present.  A successful send
(`RowOp.send true t` via `sendEmailToLead`, or `handleEmailSentHistory`) sets
both in the same update. -/
theorem claim4_sent_atomic (ops : List RowOp) :
    ((ops.foldl applyOp insertedRow).email_sent =
      (ops.foldl applyOp insertedRow).sent_at.isSome) ∧
    (∀ r t, (handleEmailSentHistory r t).email_sent = true ∧
      (handleEmailSentHistory r t).sent_at.isSome = true) := by
  constructor
  · exact sentCoherent_foldl ops insertedRow rfl
  · intro r t
    exact ⟨rfl, rfl⟩

/-- Claim C5: a failing `send-email` call leaves a lead whose status is
`email_generated` entirely unchanged — same stored fields, same derived status
— and the modal's `handleSend` never fires `onEmailSent` on a failed call. -/
theorem claim5_send_failure_unchanged (r : LeadRow) (t : List Char)
    (h : statusOf r = .emailGenerated) :
    (sendEmailToLead r false t).1 = r ∧
    statusOf (sendEmailToLead r false t).1 = .emailGenerated ∧
    (∀ lp s b, (handleSend lp s b false).2 = false) := by
  have hsent : r.email_sent = false := by
    by_contra hc
    simp only [Bool.not_eq_false] at hc
    simp [statusOf, hc] at h
  have hgen : genTruthy r.generated_email = true := by
    by_contra hc
    simp only [Bool.not_eq_true] at hc
    simp [statusOf, hsent, hc] at h
  have hfix : (sendEmailToLead r false t).1 = r := by
    simp [sendEmailToLead, hgen]
  refine ⟨hfix, by rw [hfix]; exact h, ?_⟩
  intro lp s b
  unfold handleSend
  by_cases hc : (!lp || s.isEmpty || b.isEmpty) = true
  · simp [hc]
  · simp only [Bool.not_eq_true] at hc
    simp [hc]

/-- Witness for C5 at a concrete generated lead. -/
theorem claim5_send_failure_unchanged_witness :
    (sendEmailToLead draftRow false "T".data).1 = draftRow :=
  (claim5_send_failure_unchanged draftRow "T".data (by decide)).1

/-- Claim C6 (counterexample): the claim fails for inputs where a body pattern
matches but no subject pattern does: for `"Body: hello"` the subject is left at
its initial empty value (not synthesized as `"Regarding Acme"`) and the body is
the captured text, not the entire input. -/
theorem claim6_default_subject_counterexample :
    parseEmailContent (some "Acme".data) "Body: hello".data = (.jstr [], .jstr "hello".data) ∧
    parseEmailContent (some "Acme".data) "Body: hello".data ≠
      (.jstr "Regarding Acme".data, .jstr "Body: hello".data) := by
  constructor
  · decide
  · decide

/-- Claim C6 (amended): for every non-empty input on which no JSON shape
applies and in which neither a subject pattern nor a body pattern is found,
decoding synthesizes the subject `"Regarding $\x7bcompany\x7d"` (or the generic
fallback phrase when the company is unknown or empty) and keeps the entire
input as the body; in particular, for `"Just free text, no labels"` with
company `"Acme"` it yields subject `"Regarding Acme"` and body
`"Just free text, no labels"`. -/
theorem claim6_default_subject (company : Option (List Char)) (content : List Char)
    (hne : content ≠ [])
    (hjson : ∀ v, parse content = some v → jsonShapes v = none)
    (hsm : subjectSearch content = none) (hbm : bodySearch content = none) :
    parseEmailContent company content = (.jstr (regardingOf company), .jstr content) ∧
    parseEmailContent (some "Acme".data) "Just free text, no labels".data =
      (.jstr "Regarding Acme".data, .jstr "Just free text, no labels".data) := by
  refine ⟨pec_no_pattern company content hne hjson hsm hbm, ?_⟩
  decide

/-- Witness for C6 at a concrete unlabeled input. -/
theorem claim6_default_subject_witness :
    parseEmailContent none "Just some plain text".data =
      (.jstr "Regarding Partnership Opportunity".data, .jstr "Just some plain text".data) :=
  (claim6_default_subject none "Just some plain text".data (by decide)
    (fun v h => by rw [show parse "Just some plain text".data = none from rfl] at h; cases h)
    (by decide) (by decide)).1

/-- Claim C7 (counterexample): the first `GenerateLeads.handleSubmit` variant
does not accept the bare-list envelope: fed a bare array of leads it leaves
the collection unchanged instead of populating it. -/
theorem claim7_envelope_counterexample :
    handleSubmit "find CTOs".data [] (some (.jarr [.jstr "lead1".data])) = (true, []) ∧
    ([] : List JVal) ≠ [JVal.jstr "lead1".data] := by
  constructor
  · decide
  · decide

/-- Claim C7 (amended): each `handleSubmit` variant accepts exactly one
response envelope.  The first populates the collection from the object
envelope `\x7b leads, leads_count \x7d` and ignores a bare list; the second
populates it from a non-empty bare list and ignores the object envelope. -/
theorem claim7_envelopes (d : List Char) (prev ls : List JVal) (cnt : Int)
    (hd : (jsTrim d).isEmpty = false) (hls : ls ≠ []) :
    handleSubmit d prev
        (some (.jobj [("leads".data, .jarr ls), ("leads_count".data, .jnum cnt)])) =
      (true, ls) ∧
    handleSubmit2 d prev (some (.jarr ls)) = (true, ls) ∧
    handleSubmit d prev (some (.jarr ls)) = (true, prev) ∧
    handleSubmit2 d prev
        (some (.jobj [("leads".data, .jarr ls), ("leads_count".data, .jnum cnt)])) =
      (true, prev) := by
  have g1 : getField (.jobj [("leads".data, .jarr ls), ("leads_count".data, .jnum cnt)])
      "leads".data = some (.jarr ls) := rfl
  refine ⟨?_, ?_, ?_, ?_⟩
  · simp [handleSubmit, hd, respLeadsObject, g1]
  · match ls, hls with
    | x :: tl, _ => simp [handleSubmit2, hd, respLeadsArray]
  · have g2 : getField (.jarr ls) "leads".data = none := rfl
    simp [handleSubmit, hd, respLeadsObject, g2]
  · simp [handleSubmit2, hd, respLeadsArray]

/-- Witness for C7 at concrete envelopes. -/
theorem claim7_envelopes_witness :
    handleSubmit "find CTOs".data []
        (some (.jobj [("leads".data, .jarr [JVal.jstr "x".data]),
          ("leads_count".data, .jnum 1)])) =
      (true, [JVal.jstr "x".data]) ∧
    handleSubmit2 "find CTOs".data [] (some (.jarr [JVal.jstr "x".data])) =
      (true, [JVal.jstr "x".data]) := by
  have h := claim7_envelopes "find CTOs".data [] [JVal.jstr "x".data] 1
    (by decide) (by decide)
  exact ⟨h.1, h.2.1⟩

/-- Claim C8: a submission whose criteria text is empty after trimming
performs no remote call and leaves the collection unchanged, in both
`GenerateLeads` variants; the remote call is issued exactly when the trimmed
criteria text is non-empty. -/
theorem claim8_validation_guard (d : List Char) (prev : List JVal) (resp : Option JVal) :
    ((jsTrim d).isEmpty = true →
      handleSubmit d prev resp = (false, prev) ∧ handleSubmit2 d prev resp = (false, prev)) ∧
    ((handleSubmit d prev resp).1 = true ↔ (jsTrim d).isEmpty = false) ∧
    ((handleSubmit2 d prev resp).1 = true ↔ (jsTrim d).isEmpty = false) := by
  by_cases he : (jsTrim d).isEmpty = true
  · refine ⟨fun _ => ⟨by simp [handleSubmit, he], by simp [handleSubmit2, he]⟩, ?_, ?_⟩
    · simp [handleSubmit, he]
    · simp [handleSubmit2, he]
  · simp only [Bool.not_eq_true] at he
    refine ⟨fun hc => absurd hc (by simp [he]), ?_, ?_⟩
    · cases resp <;> simp [handleSubmit, he]
    · cases resp <;> simp [handleSubmit2, he]

/-- Witness for C8 at a whitespace-only submission. -/
theorem claim8_validation_guard_witness :
    handleSubmit "   ".data [] (some (.jarr [])) = (false, []) ∧
    handleSubmit2 "   ".data [] (some (.jarr [])) = (false, []) :=
  (claim8_validation_guard "   ".data [] (some (.jarr []))).1 (by decide)

/-- Claim C9 (counterexample): changing the search term or the status filter
does not reset the current page to 1 — page state is untouched by both
setters, so the claim fails as stated. -/
theorem claim9_reset_counterexample :
    (setSearchTerm viewOnPage3 "x".data).currentPage = 3 ∧
    (setStatusFilter viewOnPage3 "sent".data).currentPage = 3 ∧
    (3 : Nat) ≠ 1 := by
  refine ⟨rfl, rfl, by decide⟩

/-- Claim C9 (amended): changing the search term or the status filter leaves
the current page unchanged (no reset and no re-clamping exist in the code),
but the page slice itself is total: with 25 filtered leads page 3 holds
exactly 5 records, and after the filtered set shrinks to 3 records page 3 is
simply empty and page 1 holds all records — no error in either case. -/
theorem claim9_pagination (st : HistoryView) (t f : List Char) (l : List LeadHistory) :
    (setSearchTerm st t).currentPage = st.currentPage ∧
    (setStatusFilter st f).currentPage = st.currentPage ∧
    (l.length = 25 → (paginatedLeads l 3).length = 5) ∧
    (l.length = 3 → paginatedLeads l 3 = [] ∧ paginatedLeads l 1 = l) := by
  refine ⟨rfl, rfl, ?_, ?_⟩
  · intro h
    simp [paginatedLeads, leadsPerPage, h]
  · intro h
    constructor
    · have : l.drop 20 = [] := List.drop_eq_nil_of_le (by omega)
      simp [paginatedLeads, leadsPerPage, this]
    · have htake : l.take 10 = l := List.take_of_length_le (by omega)
      simp [paginatedLeads, leadsPerPage, htake]

/-- Witness for C9 at concrete collections of 25 and 3 rows. -/
theorem claim9_pagination_witness :
    (paginatedLeads (List.replicate 25 dummyLead) 3).length = 5 ∧
    paginatedLeads (List.replicate 3 dummyLead) 3 = [] := by
  refine ⟨?_, ?_⟩
  · exact (claim9_pagination viewOnPage1 [] [] (List.replicate 25 dummyLead)).2.2.1 (by simp)
  · exact ((claim9_pagination viewOnPage1 [] [] (List.replicate 3 dummyLead)).2.2.2 (by simp)).1

/-- Claim C10: the email preview's send operation is guarded — when the lead
is absent or the subject or body is empty, no request is issued and no state
change happens; a request is only ever issued with a lead present and a
non-empty subject and body (both modal variants share this guard). -/
theorem claim10_send_guard (lp : Bool) (s b : List Char) (ok : Bool) :
    ((lp = false ∨ s = [] ∨ b = []) → handleSend lp s b ok = (false, false)) ∧
    ((handleSend lp s b ok).1 = true → lp = true ∧ s ≠ [] ∧ b ≠ []) := by
  constructor
  · intro h
    rcases h with h | h | h
    · simp [handleSend, h]
    · simp [handleSend, h]
    · simp [handleSend, h]
  · intro h
    by_cases hlp : lp = true
    · by_cases hs : s = []
      · simp [handleSend, hs] at h
      · by_cases hb : b = []
        · simp [handleSend, hb] at h
        · exact ⟨hlp, hs, hb⟩
    · simp only [Bool.not_eq_true] at hlp
      simp [handleSend, hlp] at h

/-- Witness for C10 at a concrete empty-body state. -/
theorem claim10_send_guard_witness :
    handleSend true "Subject".data [] true = (false, false) :=
  (claim10_send_guard true "Subject".data [] true).1 (Or.inr (Or.inr rfl))

end LeadPilot
